import Mathlib

/-
Verification development for the Confluence space downloader
(`confluence.py`).  The Python program is shallowly embedded below:

* pure string / URL helpers (`normalize_text`, `clean_url`,
  `sanitize_slug`, `rel_href`, `parse_page_id_from_url`,
  `get_space_and_title_from_url`) are translated to executable Lean
  functions over `String` (represented through their `List Char` data,
  with structural recursion only, so everything kernel-evaluates);
* the mutable `SpaceGraph` becomes a value of an association-list
  based structure, and every mutation of the Python code becomes a
  function from graph to graph, in the same statement order;
* the breadth-first crawl loop of `build_graph_and_titles` becomes a
  fuel-indexed state-transition function; the selenium renderer is an
  oracle (`Browser`) whose `nav` returns `Except Unit RenderResult`
  (`.error` models an exception escaping `driver.get`, `.ok` with
  `cid = none` models the identity-wait timing out);
* the stdlib calls `urllib.parse.urlparse` / `urljoin` /
  `os.path.relpath` are external collaborators; they are modelled for
  the URL and path shapes this program feeds them (absolute http(s)
  URLs, root-relative and plain relative references, slash separated
  relative paths).

Python `set`s are modelled as insertion-ordered duplicate-free lists
(`addToSet`), `dict`s as insertion-ordered association lists, which
preserves membership semantics and determinises iteration order.
-/

set_option maxRecDepth 4096

namespace Confluence

/-! ## Character and string helpers (structural, kernel-evaluable) -/

/-- ASCII per-character lowercasing of a string (models `str.lower()`
for the ASCII identifiers this program compares). -/
def lowerStr (s : String) : String :=
  String.mk (s.data.map Char.toLower)

/-- Lexicographic (code-point) strict comparison on char lists,
matching Python string `<`. -/
def charListLt : List Char → List Char → Bool
  | [], [] => false
  | [], _ :: _ => true
  | _ :: _, [] => false
  | a :: as, b :: bs => if a < b then true else if a = b then charListLt as bs else false

/-- Python string `<`. -/
def strLtB (a b : String) : Bool :=
  charListLt a.data b.data

/-- Tests whether `s` starts with `pre` (models `str.startswith`). -/
def strStarts (s pre : String) : Bool :=
  pre.data.isPrefixOf s.data

/-- Tests whether `s` ends with `suf` (models `str.endswith`). -/
def strEnds (s suf : String) : Bool :=
  suf.data.isSuffixOf s.data

/-- Substring containment helper on char lists. -/
def infixAux (pat : List Char) : List Char → Bool
  | [] => pat.isPrefixOf []
  | c :: t => pat.isPrefixOf (c :: t) || infixAux pat t

/-- Tests whether `pat` occurs inside `s` (models Python `pat in s`). -/
def containsStr (s pat : String) : Bool :=
  infixAux pat.data s.data

/-- Python whitespace class `\s` (ASCII part, which is all this
program ever meets in titles and URLs). -/
def isPySpace (c : Char) : Bool :=
  c = ' ' || c = '\t' || c = '\n' || c = '\r' || c = '\x0b' || c = '\x0c'

/-- Strip characters satisfying `p` from both ends of a char list. -/
def stripList (p : Char → Bool) (l : List Char) : List Char :=
  ((l.dropWhile p).reverse.dropWhile p).reverse

/-- Python `str.strip()` (whitespace). -/
def stripWs (s : String) : String :=
  String.mk (stripList isPySpace s.data)

/-- Python `str.strip(". ")`. -/
def stripDotSpace (s : String) : String :=
  String.mk (stripList (fun c => c = '.' || c = ' ') s.data)

/-- Hex digit value, as used by percent-decoding. -/
def hexVal? (c : Char) : Option Nat :=
  if '0' ≤ c ∧ c ≤ '9' then some (c.toNat - '0'.toNat)
  else if 'a' ≤ c ∧ c ≤ 'f' then some (c.toNat - 'a'.toNat + 10)
  else if 'A' ≤ c ∧ c ≤ 'F' then some (c.toNat - 'A'.toNat + 10)
  else none

/-- Percent-decoding on char lists; an invalid escape is left alone,
like `urllib.parse.unquote` (ASCII fragment of it). -/
def unquoteList : List Char → List Char
  | '%' :: a :: b :: rest =>
    match hexVal? a, hexVal? b with
    | some x, some y => Char.ofNat (16 * x + y) :: unquoteList rest
    | _, _ => '%' :: unquoteList (a :: b :: rest)
  | c :: rest => c :: unquoteList rest
  | [] => []

/-- Models `urllib.parse.unquote` (ASCII). -/
def unquote (s : String) : String :=
  String.mk (unquoteList s.data)

/-- Python `str.replace("+", " ")`. -/
def plusToSpace (s : String) : String :=
  String.mk (s.data.map fun c => if c = '+' then ' ' else c)

/-- Collapse every run of whitespace to one space
(`re.sub(r"\s+", " ", s)`); the flag records whether the previous
character belonged to a run already replaced. -/
def collapseWsAux : List Char → Bool → List Char
  | [], _ => []
  | c :: t, prev =>
    if isPySpace c then
      (if prev then collapseWsAux t true else ' ' :: collapseWsAux t true)
    else c :: collapseWsAux t false

def collapseWs (s : String) : String :=
  String.mk (collapseWsAux s.data false)

/-- Drop every whitespace character (`re.sub(r"\s+", "", s)`). -/
def dropWs (s : String) : String :=
  String.mk (s.data.filter (fun c => !(isPySpace c)))

/-- Insert-if-absent, the model of Python `set.add` on an
insertion-ordered duplicate-free list. -/
def addToSet (xs : List String) (x : String) : List String :=
  if x ∈ xs then xs else xs ++ [x]

/-- Join a list of components with a separator. -/
def joinWith (sep : String) : List String → String
  | [] => ""
  | [x] => x
  | x :: y :: t => x ++ sep ++ joinWith sep (y :: t)

/-- Split a char list at the first occurrence of `c`; `none` when `c`
does not occur. -/
def splitFirstChar (c : Char) : List Char → List Char × Option (List Char)
  | [] => ([], none)
  | x :: xs =>
    if x = c then ([], some xs)
    else
      let (a, b) := splitFirstChar c xs
      (x :: a, b)

/-- Split a char list on every occurrence of `c`
(models `str.split("/")` and friends). -/
def splitAllChar (c : Char) : List Char → List (List Char)
  | [] => [[]]
  | x :: xs =>
    let r := splitAllChar c xs
    if x = c then [] :: r
    else
      match r with
      | [] => [[x]]
      | h :: t => (x :: h) :: t

/-- Models `str.split(sep)` for a one-character separator, as strings. -/
def splitChar (s : String) (c : Char) : List String :=
  (splitAllChar c s.data).map String.mk

/-! ## URL model (`urllib.parse` collaborator)

The program only ever parses http(s) URLs, root-relative references
and plain relative references; `urlparse` / `urljoin` / `urlunparse`
are modelled for exactly those shapes. -/

structure UrlParts where
  scheme : String := ""
  netloc : String := ""
  path : String := ""
  query : String := ""
  fragment : String := ""
deriving DecidableEq

/-- Find the first `"://"` and split around it. -/
def splitSchemeSep : List Char → Option (List Char × List Char)
  | ':' :: '/' :: '/' :: rest => some ([], rest)
  | c :: rest => (splitSchemeSep rest).map (fun pr => (c :: pr.1, pr.2))
  | [] => none

/-- Models `urllib.parse.urlparse`, for the URL shapes this program feeds it
(fragment split at the first `#`, query at the first `?`, netloc up to
the first `/` after `scheme://`; a reference with no `://` parses as a
bare path). -/
def urlparse (s : String) : UrlParts :=
  let (noFrag, frag) := splitFirstChar '#' s.data
  let (noQuery, query) := splitFirstChar '?' noFrag
  match splitSchemeSep noQuery with
  | some (sch, rest) =>
    let netloc := rest.takeWhile (fun c => !(c = '/'))
    let path := rest.dropWhile (fun c => !(c = '/'))
    { scheme := lowerStr (String.mk sch), netloc := String.mk netloc,
      path := String.mk path, query := String.mk (query.getD []),
      fragment := String.mk (frag.getD []) }
  | none =>
    { scheme := "", netloc := "", path := String.mk noQuery,
      query := String.mk (query.getD []), fragment := String.mk (frag.getD []) }

/-- Models `urllib.parse.urlunparse` of a parse result whose query and
fragment have been cleared (the only way the program calls it). -/
def unparseNoQuery (p : UrlParts) : String :=
  if p.scheme = "" then p.path else p.scheme ++ "://" ++ p.netloc ++ p.path

/-- Models `urllib.parse.urldefrag`: split off everything after the first
`#`. -/
def urldefrag (s : String) : String × String :=
  let (before, frag) := splitFirstChar '#' s.data
  (String.mk before, String.mk (frag.getD []))

/-- The char list of a path up to (excluding) its last `/`
(`os.path.dirname` on slash paths). -/
def dirnameList (l : List Char) : List Char :=
  match l.reverse.dropWhile (fun c => !(c = '/')) with
  | [] => []
  | _ :: t => t.reverse

/-- Models `urllib.parse.urljoin`, for the reference shapes this program
produces: absolute http(s) URLs pass through, `//`-references adopt
the base scheme, root-relative references replace the base path, and
plain relative references replace the last base path segment. -/
def urljoin (base url : String) : String :=
  if url = "" then base
  else if strStarts url "http://" || strStarts url "https://" then url
  else if strStarts url "//" then (urlparse base).scheme ++ ":" ++ url
  else
    let b := urlparse base
    let origin := b.scheme ++ "://" ++ b.netloc
    if strStarts url "/" then origin ++ url
    else origin ++ String.mk (dirnameList b.path.data) ++ "/" ++ url

/-- First value of a query-string key, with `urllib.parse.parse_qs`
semantics: pairs split on `&` then at the first `=`, blank values and
bare keys dropped, values percent-plus-decoded. -/
def parseQsFirst (query key : String) : Option String :=
  (splitChar query '&').findSome? fun pr =>
    match splitFirstChar '=' pr.data with
    | (k, some v) =>
      if String.mk k = key ∧ ¬ String.mk v = "" then
        some (unquote (plusToSpace (String.mk v)))
      else none
    | (_, none) => none

/-! ## Configuration and URL / text utils of `confluence.py` -/

/-- The two configuration values the URL helpers close over
(`BASE_URL`, already `rstrip("/")`-ed, and `SPACE_KEY`). -/
structure Config where
  baseUrl : String
  spaceKey : String

/-- The set `RESTRICTED_URLS` (confluence.py lines 118-128). -/
def RESTRICTED_URLS : List String :=
  ["/pages/copypage.action",
   "/pages/copyscaffoldfromajax.action",
   "/pages/createpage.action",
   "/usage/report.action",
   "/plugins/confanalytics/analytics.action",
   "/spaces/viewspacesummary.action",
   "/collector/pages.action",
   "/pages/reorderpages.action",
   "undefined"]

/-- The set `WINDOWS_RESERVED` (confluence.py lines 129-133). -/
def WINDOWS_RESERVED : List String :=
  ["con", "prn", "aux", "nul",
   "com1", "com2", "com3", "com4", "com5", "com6", "com7", "com8", "com9",
   "lpt1", "lpt2", "lpt3", "lpt4", "lpt5", "lpt6", "lpt7", "lpt8", "lpt9"]

/-- Function `normalize_text` (lines 135-140). -/
def normalize_text (s : String) : String :=
  if s = "" then ""
  else lowerStr (stripWs (collapseWs (plusToSpace (unquote s))))

/-- Function `get_space_and_title_from_url` (lines 142-161). -/
def get_space_and_title_from_url (url : String) : Option String × Option String :=
  let u := urlparse url
  let p := u.path
  if containsStr p "/display/" then
    let parts := (splitChar p '/').filter (fun x => !(x = ""))
    match parts.indexOf? "display" with
    | some i =>
      let space := parts.get? (i + 1)
      let title := (parts.get? (i + 2)).map (fun t => plusToSpace (unquote t))
      (space, title)
    | none => (none, none)
  else if strEnds p "/pages/viewpage.action" then
    let space := parseQsFirst u.query "spaceKey"
    let title := (parseQsFirst u.query "title").map (fun t => plusToSpace (unquote t))
    (space, title)
  else (none, none)

/-- Function `same_space` (lines 163-165). -/
def same_space (cfg : Config) (url : String) : Bool :=
  lowerStr ((get_space_and_title_from_url url).1.getD "") = lowerStr cfg.spaceKey

/-- Lines 170-171 of `clean_url`: absolutize a non-http(s) reference
against the configured base. -/
def normalizedUrl (cfg : Config) (url : String) : String :=
  if strStarts url "http://" || strStarts url "https://" then url
  else urljoin cfg.baseUrl url

/-- Function `clean_url` (lines 167-180). -/
def clean_url (cfg : Config) (url : String) : Option String :=
  if url = "" then none
  else if (urlparse (normalizedUrl cfg url)).scheme = "" ∨ (urlparse (normalizedUrl cfg url)).netloc = "" then none
  else if ¬ strStarts (normalizedUrl cfg url) cfg.baseUrl then none
  else if RESTRICTED_URLS.any (fun bad => containsStr (normalizedUrl cfg url) bad) || containsStr (normalizedUrl cfg url) "/label/" then none
  else some (unparseNoQuery (urlparse (normalizedUrl cfg url)))

/-- Function `sanitize_slug` (lines 182-194). -/
def sanitize_slug (name fallback : String) : String :=
  let base :=
    if name = "" then fallback
    else
      let s := unquote name
      let s := String.mk (s.data.filter (fun c => !(c = '/')))
      let s := String.mk (s.data.filter (fun c => !(c = '\\')))
      let s := String.mk (s.data.filter (fun c =>
        c.isAlphanum || c = ' ' || c = '_' || c = '-' || c = '.'))
      let s := dropWs s
      let s := stripWs s
      if s = "" then fallback else s
  let base := let b := stripDotSpace base; if b = "" then fallback else b
  let base := if lowerStr base ∈ WINDOWS_RESERVED then base ++ "_page" else base
  let r := String.mk (base.data.take 120)
  if r = "" then fallback else r

/-- Drop the common leading components of two component lists. -/
def dropCommon : List String → List String → List String × List String
  | a :: as, b :: bs => if a = b then dropCommon as bs else (a :: as, b :: bs)
  | as, bs => (as, bs)

/-- Models `os.path.relpath` on slash-separated relative paths (the shapes
`materialize_folders` produces): drop the common component run, walk
up with `..`, then down into the target. -/
def os_relpath (path start : String) : String :=
  let pc := (splitChar path '/').filter (fun s => !(s = "") && !(s = "."))
  let sc := (splitChar start '/').filter (fun s => !(s = "") && !(s = "."))
  let (p2, s2) := dropCommon pc sc
  let comps := s2.map (fun _ => "..") ++ p2
  if comps = [] then "." else joinWith "/" comps

/-- Function `rel_href` (lines 199-201); on this model the separator is already
`/`. -/
def rel_href (fromDir toFile : String) : String :=
  os_relpath toFile fromDir

/-- Function `parse_page_id_from_url` (lines 203-210). -/
def parse_page_id_from_url (url : String) : Option String :=
  let u := urlparse url
  if strEnds u.path "/pages/viewpage.action" then parseQsFirst u.query "pageId"
  else none

/-! ## Graph model (`PageNode`, `SpaceGraph`, lines 215-244) -/

/-- Structure `PageNode` (lines 215-223).  The Python `set`s `hrefs` and
`children` are insertion-ordered duplicate-free lists. -/
structure PageNode where
  id : String
  space_key : String
  title : Option String := none
  slug : Option String := none
  hrefs : List String := []
  parent_id : Option String := none
  children : List String := []
deriving DecidableEq

/-- Structure `SpaceGraph` (lines 225-244); `nodes` is the insertion-ordered
dict keyed by page id. -/
structure SpaceGraph where
  space_key : String
  nodes : List (String × PageNode) := []
  root_id : Option String := none
deriving DecidableEq

/-- Lookup in the node dict. -/
def lookupNode : List (String × PageNode) → String → Option PageNode
  | [], _ => none
  | (k, v) :: rest, pid => if k = pid then some v else lookupNode rest pid

/-- In-place field mutation of the node stored under `pid` (a no-op
when `pid` is absent, which no translated call site reaches). -/
def updateNode : List (String × PageNode) → String → (PageNode → PageNode) →
    List (String × PageNode)
  | [], _, _ => []
  | (k, v) :: rest, pid, f =>
    if k = pid then (k, f v) :: rest else (k, v) :: updateNode rest pid f

/-- The key list of the node dict (`GRAPH.nodes.keys()`). -/
def idsList (ns : List (String × PageNode)) : List String :=
  ns.map Prod.fst

/-- Method `SpaceGraph.get_or_create` (lines 230-233), as the graph after the
call (the returned node is re-looked-up by the translated callers). -/
def SpaceGraph.get_or_create (g : SpaceGraph) (pid : String) : SpaceGraph :=
  match lookupNode g.nodes pid with
  | some _ => g
  | none => { g with nodes := g.nodes ++ [(pid, { id := pid, space_key := g.space_key })] }

/-- Method `SpaceGraph.set_parent` (lines 234-242): create/link both nodes
and record the edge, or mark `child` as root when `parent` is `None`.
There is no descendant / cycle check. -/
def SpaceGraph.set_parent (g : SpaceGraph) (child : String) (parent : Option String) :
    SpaceGraph :=
  let g1 := g.get_or_create child
  match parent with
  | some p =>
    let g2 := g1.get_or_create p
    let g3 := { g2 with nodes := updateNode g2.nodes child (fun n => { n with parent_id := some p }) }
    { g3 with nodes := updateNode g3.nodes p (fun n => { n with children := addToSet n.children child }) }
  | none =>
    { g1 with root_id := some child,
              nodes := updateNode g1.nodes child (fun n => { n with parent_id := none }) }

/-- Method `SpaceGraph.all_ids` (lines 243-244). -/
def SpaceGraph.all_ids (g : SpaceGraph) : List String :=
  idsList g.nodes

/-- Statement `node.hrefs.add(url)` on the node stored under `pid`. -/
def SpaceGraph.addHref (g : SpaceGraph) (pid url : String) : SpaceGraph :=
  { g with nodes := updateNode g.nodes pid (fun n => { n with hrefs := addToSet n.hrefs url }) }

/-- Python truthiness of an optional string (`None` and `""` are
falsy). -/
def optFalsy : Option String → Bool
  | none => true
  | some s => s = ""

/-- Statement `if t and not node.title: node.title = t` on the node
stored under `pid`, for an already-truthy `t`. -/
def SpaceGraph.fillTitle (g : SpaceGraph) (pid t : String) : SpaceGraph :=
  { g with nodes := updateNode g.nodes pid (fun n =>
      if optFalsy n.title then { n with title := some t } else n) }

/-- The observable hrefs of the node stored under `pid` (empty when
absent). -/
def hrefsOf (ns : List (String × PageNode)) (pid : String) : List String :=
  ((lookupNode ns pid).map PageNode.hrefs).getD []

/-- The observable children of the node stored under `pid` (empty when
absent). -/
def childrenOf (ns : List (String × PageNode)) (pid : String) : List String :=
  ((lookupNode ns pid).map PageNode.children).getD []

/-- The `parent_id` of the node stored under `pid`, when present. -/
def parentIdOf (ns : List (String × PageNode)) (pid : String) : Option (Option String) :=
  (lookupNode ns pid).map PageNode.parent_id

/-- The walk of `materialize_folders.path_components` (lines
1025-1033) and `render_breadcrumbs`: follow `parent_id` upward.  The
Python loop is unbounded; here it carries fuel, and returns the
reached parent-less ancestor, or `none` when the walk leaves the graph
or does not terminate within the fuel. -/
def walkToRoot (g : SpaceGraph) : Nat → String → Option String
  | 0, _ => none
  | fuel + 1, cur =>
    match lookupNode g.nodes cur with
    | none => none
    | some n =>
      match n.parent_id with
      | none => some cur
      | some p => walkToRoot g fuel p

/-! ## Slug finalization (lines 1006-1020) -/

/-- Fallback titles: every title-less node gets `page-<id>` (lines
1007-1009). -/
def fillFallbackTitles (g : SpaceGraph) : SpaceGraph :=
  { g with nodes := g.nodes.map (fun pr =>
      (pr.1, if optFalsy pr.2.title then { pr.2 with title := some ("page-" ++ pr.1) } else pr.2)) }

/-- Expression `n.title or ""`, read through the graph. -/
def titleOrEmpty (g : SpaceGraph) (pid : String) : String :=
  (((lookupNode g.nodes pid).bind PageNode.title)).getD ""

/-- Strict comparison on the Python sort key
`(GRAPH.nodes[i].title or "", i)` (line 1015). -/
def slugSortLt (g : SpaceGraph) (a b : String) : Bool :=
  let ta := titleOrEmpty g a
  let tb := titleOrEmpty g b
  if strLtB ta tb then true else if ta = tb then strLtB a b else false

/-- Stable insertion into a list sorted by the strict order `lt`. -/
def insertBy (lt : α → α → Bool) (x : α) : List α → List α
  | [] => [x]
  | y :: ys => if lt x y then x :: y :: ys else y :: insertBy lt x ys

/-- Insertion sort by the strict order `lt` (the sort keys used here
are pairwise distinct, so this agrees with Python `sorted`). -/
def sortBy (lt : α → α → Bool) : List α → List α
  | [] => []
  | x :: xs => insertBy lt x (sortBy lt xs)

/-- The name argument passed to `sanitize_slug` on line 1017: the
title when truthy, else `page-<id>`. -/
def slugNameArg (nid : String) (title : Option String) : String :=
  match title with
  | some t => if t = "" then "page-" ++ nid else t
  | none => "page-" ++ nid

/-- Lines 1017-1018: the slug chosen for one sibling, disambiguated
with `-<id>` when the sanitized base is already used
(case-insensitively). -/
def slugChoice (used : List String) (nid : String) (title : Option String) : String :=
  let base := sanitize_slug (slugNameArg nid title) ("page-" ++ nid)
  if lowerStr base ∈ used then base ++ "-" ++ nid else base

/-- The inner loop of slug assignment (lines 1014-1020) over the
already-sorted `(nid, title)` list, threading the `used` set of
lowercased slugs.  The ghost boolean records whether every assigned
slug was still unused (case-insensitively) at its assignment — the
code itself performs no such check after appending `-<id>`. -/
def assignSlugsAux : List (String × Option String) → List String →
    List (String × String) × Bool
  | [], _ => ([], true)
  | (nid, title) :: rest, used =>
    let slug := slugChoice used nid title
    let fresh := if lowerStr slug ∈ used then false else true
    let out := assignSlugsAux rest (addToSet used (lowerStr slug))
    ((nid, slug) :: out.1, fresh && out.2)

/-- Write assigned slugs back into the graph (`n.slug = slug`). -/
def writeSlugs (g : SpaceGraph) (out : List (String × String)) : SpaceGraph :=
  out.foldl (fun g pr =>
    { g with nodes := updateNode g.nodes pr.1 (fun n => { n with slug := some pr.2 }) }) g

/-- Slug assignment for one sibling group: sort by `(title, id)`, then
run the `used`-threaded loop and write the slugs back. -/
def slugAssignGroup (g : SpaceGraph) (childIds : List String) : SpaceGraph × Bool :=
  let sorted := sortBy (slugSortLt g) childIds
  let pairs := sorted.map (fun nid => (nid, (lookupNode g.nodes nid).bind PageNode.title))
  let out := assignSlugsAux pairs []
  (writeSlugs g out.1, out.2)

/-- The group keys of `by_parent` in first-occurrence order (lines
1010-1012). -/
def parentKeys (g : SpaceGraph) : List (Option String) :=
  g.nodes.foldl (fun acc pr => if pr.2.parent_id ∈ acc then acc else acc ++ [pr.2.parent_id]) []

/-- The member ids of one `by_parent` group, in node-insertion
order. -/
def childIdsOf (g : SpaceGraph) (p : Option String) : List String :=
  (g.nodes.filter (fun pr => pr.2.parent_id == p)).map Prod.fst

/-- The whole slug-finalization phase (lines 1006-1020): fallback
titles, then per-parent-group slug assignment.  The boolean is the
conjunction of the per-group ghost freshness flags. -/
def finalizeSlugs (g : SpaceGraph) : SpaceGraph × Bool :=
  let g := fillFallbackTitles g
  (parentKeys g).foldl (fun acc p =>
    let r := slugAssignGroup acc.1 (childIdsOf acc.1 p)
    (r.1, acc.2 && r.2)) (g, true)

/-! ## Crawl orchestration (`build_graph_and_titles`, lines 905-1004)

The selenium renderer is an oracle.  `navigate_and_wait` (lines
331-336) runs `driver.get` unguarded — an exception thrown there is
modelled as `.error`; the identity-wait timing out is modelled as
`.ok` with `cid = none` (the inner waits catch their own
exceptions). -/

structure RenderResult where
  cid : Option String
  title : Option String
  parent : Option String
  /-- The browser URL (`driver.current_url`) after the navigation. -/
  currentUrl : String
deriving DecidableEq

structure Browser where
  /-- Oracle for `navigate_and_wait url`, with the browser URL it ends on. -/
  nav : String → Except Unit RenderResult
  /-- The raw content-anchor hrefs the DOM shows after navigating to
  the given URL (input of `extract_same_space_links_from_content`). -/
  anchors : String → List String

/-- Function `extract_same_space_links_from_content` (lines 511-528): defrag,
clean and same-space-filter each anchor into a set. -/
def extract_same_space_links (cfg : Config) (B : Browser) (pageUrl : String) : List String :=
  (B.anchors pageUrl).foldl (fun acc href =>
    let href0 := (urldefrag href).1
    match clean_url cfg href0 with
    | some cl => if same_space cfg cl then addToSet acc cl else acc
    | none => acc) []

/-- Statement `if t and not node.title: node.title = t` for an
optional `t` (Python truthiness: `None` and `""` skip). -/
def fillTitleStep (g : SpaceGraph) (pid : String) (t : Option String) : SpaceGraph :=
  match t with
  | some s => if s = "" then g else g.fillTitle pid s
  | none => g

/-- Statement `if eparent: GRAPH.set_parent(ecid, str(eparent))`
(lines 999-1000). -/
def setParentStep (g : SpaceGraph) (pid : String) (p : Option String) : SpaceGraph :=
  match p with
  | some s => if s = "" then g else g.set_parent pid (some s)
  | none => g

/-- Statement `if parent: GRAPH.set_parent(cur, str(parent)) elif cur
== root_id: GRAPH.set_parent(cur, None)` (lines 976-979). -/
def parentAssignStep (rootId : String) (g : SpaceGraph) (cur : String) (p : Option String) :
    SpaceGraph :=
  match p with
  | some s =>
    if s = "" then (if cur = rootId then g.set_parent cur none else g)
    else g.set_parent cur (some s)
  | none => if cur = rootId then g.set_parent cur none else g

/-- One iteration of the `for link in extra_links` body (lines
983-1004), threading graph and queue.  The `try` around the non-id
branch swallows a navigation exception. -/
def processLink (B : Browser) (visited : List String)
    (acc : SpaceGraph × List String) (link : String) : SpaceGraph × List String :=
  let g := acc.1
  let q := acc.2
  match parse_page_id_from_url link with
  | some pid =>
    let g := g.get_or_create pid
    let g := g.addHref pid link
    let q := if pid ∉ visited ∧ pid ∉ q then q ++ [pid] else q
    (g, q)
  | none =>
    match B.nav link with
    | .error _ => (g, q)
    | .ok r =>
      match r.cid with
      | none => (g, q)
      | some ecid =>
        let g := g.get_or_create ecid
        let g := g.addHref ecid link
        let g := fillTitleStep g ecid r.title
        let g := setParentStep g ecid r.parent
        let q := if ecid ∉ visited ∧ ecid ∉ q then q ++ [ecid] else q
        (g, q)

/-- The canonical-reconciliation re-binding of `cur` (lines 970-972):
when the rendered id differs from the dequeued id, the iteration
switches to the rendered id. -/
def effectiveCur (r : RenderResult) (cur0 : String) : String :=
  match r.cid with
  | some c => if c = cur0 then cur0 else c
  | none => cur0

/-- Lines 970-979: re-bind to the rendered id, record the current
URL, fill the title, and apply the rendered parent (`if parent: … elif
cur == root_id: …`). -/
def visitPhase (rootId : String) (g : SpaceGraph) (cur0 : String) (r : RenderResult) :
    SpaceGraph × String :=
  let cur := effectiveCur r cur0
  let g := if cur = cur0 then g else g.get_or_create cur
  let g := g.addHref cur r.currentUrl
  let g := fillTitleStep g cur r.title
  let g := parentAssignStep rootId g cur r.parent
  (g, cur)

/-- Line 967: the representative URL of a node (first known href,
else the canonical viewpage URL built from the id).  Python draws
`next(iter(node.hrefs))`; the set model determinises it to the first
inserted href. -/
def hrefChoice (cfg : Config) (node : PageNode) (cur : String) : String :=
  match node.hrefs.head? with
  | some h => h
  | none => cfg.baseUrl ++ "/pages/viewpage.action?pageId=" ++ cur

/-- The body of one processed queue iteration (lines 966-1004), after
`cur` was popped and marked visited.  `.error` is an exception
escaping the iteration (KeyError on a missing node, or `driver.get`
raising inside `navigate_and_wait`) — nothing in the loop catches
it. -/
def crawlStep (cfg : Config) (B : Browser) (rootId : String) (g : SpaceGraph)
    (visited queue : List String) (cur0 : String) :
    Except Unit (SpaceGraph × List String × String) :=
  match lookupNode g.nodes cur0 with
  | none => .error ()
  | some node =>
    let href := hrefChoice cfg node cur0
    match B.nav href with
    | .error e => .error e
    | .ok r =>
      let vp := visitPhase rootId g cur0 r
      let links := extract_same_space_links cfg B href
      let gq := links.foldl (processLink B visited) (vp.1, queue)
      .ok (gq.1, gq.2, vp.2)

/-- The crawl-loop state.  `visited` is the append-only visited set
(its length is the number of processed iterations); `renderedLog` is a
ghost trace of the page identity each processed iteration operated on
(the re-bound `cur`), used to observe which logical pages the loop
visited. -/
structure CrawlState where
  graph : SpaceGraph
  visited : List String
  queue : List String
  renderedLog : List String := []
deriving DecidableEq

/-- The `while queue:` loop (lines 959-1004), indexed by fuel.  The
boolean of the result records whether the queue was exhausted within
the fuel; `.error` is an exception aborting `build_graph_and_titles`
(and with it the whole crawl). -/
def crawlLoop (cfg : Config) (B : Browser) (rootId : String) :
    Nat → CrawlState → Except Unit (CrawlState × Bool)
  | 0, st => .ok (st, st.queue.isEmpty)
  | fuel + 1, st =>
    match st.queue with
    | [] => .ok (st, true)
    | cur :: rest =>
      if cur ∈ st.visited then
        crawlLoop cfg B rootId fuel { st with queue := rest }
      else
        match crawlStep cfg B rootId st.graph (st.visited ++ [cur]) rest cur with
        | .error e => .error e
        | .ok out =>
          crawlLoop cfg B rootId fuel
            { graph := out.1, visited := st.visited ++ [cur], queue := out.2.1,
              renderedLog := st.renderedLog ++ [out.2.2] }

/-- Seeding of the graph from the resolved start page (lines
935-941), given the resolved root id, title and the browser URL. -/
def seedGraph (cfg : Config) (rootId : String) (title : Option String)
    (currentUrl : String) : SpaceGraph :=
  let g : SpaceGraph := { space_key := cfg.spaceKey }
  let g := g.get_or_create rootId
  let g := g.addHref rootId currentUrl
  let g := match title with
    | some t => if t = "" then g else g.fillTitle rootId t
    | none => g
  g.set_parent rootId none

/-- Merging the harvested page-tree entries `(pid, title, parent_id,
href)` into the graph (lines 948-956). -/
def harvestMerge (rootId : String) (g : SpaceGraph)
    (entries : List (String × String × Option String × String)) : SpaceGraph :=
  entries.foldl (fun g e =>
    let pid := e.1
    let t := e.2.1
    let parentId := e.2.2.1
    let href := e.2.2.2
    let g := g.get_or_create pid
    let g := g.addHref pid href
    let g := if t = "" then g else g.fillTitle pid t
    if pid = rootId then g.set_parent rootId none
    else match parentId with
      | some pp => if pp = "" then g else g.set_parent pid (some pp)
      | none => g) g

/-! ## Link rewriting in `save_page_html` (lines 811-863) -/

/-- Function `resolve_target_id` (lines 811-821): a parsed `pageId` known to
the graph wins; otherwise a same-space `(space, title)` URL resolves
against normalized node titles (first node-dict match). -/
def resolve_target_id (cfg : Config) (g : SpaceGraph) (href0 : String) : Option String :=
  let byTitle :=
    let st := get_space_and_title_from_url href0
    if lowerStr (st.1.getD "") = lowerStr cfg.spaceKey then
      match st.2 with
      | some t =>
        if t = "" then none
        else
          let norm := normalize_text t
          ((g.nodes.find? (fun pr => normalize_text (pr.2.title.getD "") == norm)).map Prod.fst)
      | none => none
    else none
  match parse_page_id_from_url href0 with
  | some pid => if (lookupNode g.nodes pid).isSome then some pid else byTitle
  | none => byTitle

/-- Case-insensitive match of the literal `/display/~` at the head of
the list. -/
def tildeHead : List Char → Bool
  | '/' :: d :: i :: s :: p :: l :: a :: y :: '/' :: '~' :: _ =>
    d.toLower = 'd' ∧ i.toLower = 'i' ∧ s.toLower = 's' ∧ p.toLower = 'p' ∧
    l.toLower = 'l' ∧ a.toLower = 'a' ∧ y.toLower = 'y'
  | _ => false

/-- Models `re.search` of the pattern `/display/~([^/?#]+)` with
`re.IGNORECASE`: the first position where the literal matches with a
non-empty capture. -/
def tildeCapture : List Char → Option (List Char)
  | [] => none
  | c :: cs =>
    if tildeHead (c :: cs) then
      let cap := ((c :: cs).drop 10).takeWhile (fun ch => !(ch = '/') && !(ch = '?') && !(ch = '#'))
      if cap = [] then tildeCapture cs else some cap
    else tildeCapture cs

/-- The email-profile detection of the rewriting loop (lines
829-841): a `data-username` containing `@`, else the captured
`/display/~…` path segment; the candidate is used only when it
contains `@`. -/
def emailCandidate (cfg : Config) (href0 dataUsername : String) : Option String :=
  let du := stripWs dataUsername
  let candidate :=
    if containsStr du "@" then some du
    else
      let absu := urljoin (cfg.baseUrl ++ "/") href0
      (tildeCapture (urlparse absu).path.data).map (fun cap => unquote (String.mk cap))
  match candidate with
  | some c => if containsStr c "@" then some c else none
  | none => none

/-- The per-anchor link rewriting of `save_page_html` (lines
824-863), returning the final `href` attribute value.  `idToFolder`
is the (total on graph ids) `id_to_folder` map and `idToPathHtml` the
`id_to_path_html` map read through `.get`. -/
def rewriteAnchor (cfg : Config) (g : SpaceGraph) (idToFolder : String → String)
    (idToPathHtml : String → Option String) (nodeId rawHref dataUsername : String) : String :=
  let df := urldefrag rawHref
  let href0 := df.1
  let frag := df.2
  match emailCandidate cfg href0 dataUsername with
  | some c => "mailto:" ++ c
  | none =>
    match clean_url cfg href0 with
    | none => rawHref
    | some cl =>
      let tid :=
        match resolve_target_id cfg g cl with
        | some t => some t
        | none =>
          if ¬ same_space cfg cl then none
          else resolve_target_id cfg g cl
      match tid with
      | none => rawHref
      | some t =>
        match idToPathHtml t with
        | none => rawHref
        | some target =>
          let rel := rel_href (idToFolder nodeId) target
          rel ++ (if frag = "" then "" else "#" ++ frag)

/-! ## Spec-side predicate for URL filtering (for claim C8) -/

/-- Modelled from the spec: §4.4 step 2 discards a link exactly when,
after normalization to an absolute URL, it "does not share
scheme+host with the configured origin", or its path matches the
deny-list of action/administrative endpoints, or it contains a
label-browsing path segment. -/
def spec_discards (cfg : Config) (url : String) : Bool :=
  let u := urlparse (normalizedUrl cfg url)
  let o := urlparse cfg.baseUrl
  !(u.scheme = o.scheme && u.netloc = o.netloc) ||
    RESTRICTED_URLS.any (fun bad => strEnds u.path bad) ||
    containsStr u.path "/label/"

/-! ## Invariant predicates used by the theorems -/

/-- Monotone evolution of the node dict: ids are never removed, hrefs
are never removed, and duplicate-freeness of the keys is preserved. -/
def gmono (ns ns' : List (String × PageNode)) : Prop :=
  (∀ x, x ∈ idsList ns → x ∈ idsList ns') ∧
  (∀ i u, u ∈ hrefsOf ns i → u ∈ hrefsOf ns' i) ∧
  ((idsList ns).Nodup → (idsList ns').Nodup)

/-- Queue sanity relative to a visited set: no duplicates, disjoint
from `visited`, and every queued id is a graph node. -/
def QInv (visited : List String) (ns : List (String × PageNode)) (q : List String) : Prop :=
  q.Nodup ∧ (∀ x ∈ q, x ∉ visited) ∧ (∀ x ∈ q, x ∈ idsList ns)

/-- The crawl-loop invariant. -/
def LInv (st : CrawlState) : Prop :=
  (idsList st.graph.nodes).Nodup ∧ st.visited.Nodup ∧
  (∀ x ∈ st.visited, x ∈ idsList st.graph.nodes) ∧
  QInv st.visited st.graph.nodes st.queue

/-- The node stored under `rootId` exists and has `parent_id =
None`. -/
def rootParentNone (ns : List (String × PageNode)) (rootId : String) : Prop :=
  parentIdOf ns rootId = some none

/-! ## Concrete crawl scenarios (inputs of the closed theorems) -/

/-- The configuration all concrete scenarios share. -/
def cfgT : Config := { baseUrl := "https://h", spaceKey := "SP" }

/-- Browser for the alias scenario of C3: the page-tree href `H100`
of the harvested node `100` meanwhile renders canonical id `101`,
which is also discovered as its own link. -/
def browserC3 : Browser :=
  { nav := fun u =>
      if u = "Hr" then .ok { cid := some "r", title := some "Root", parent := none, currentUrl := "Hr" }
      else if u = "https://h/display/SP/P1" then .ok { cid := some "100", title := none, parent := none, currentUrl := "https://h/display/SP/P1" }
      else if u = "https://h/display/SP/P2" then .ok { cid := some "101", title := none, parent := none, currentUrl := "https://h/display/SP/P2" }
      else if u = "H100" then .ok { cid := some "101", title := none, parent := none, currentUrl := "C101" }
      else .ok { cid := none, title := none, parent := none, currentUrl := u },
    anchors := fun u =>
      if u = "Hr" then ["https://h/display/SP/P1", "https://h/display/SP/P2"] else [] }

/-- Seed + harvested start state for the C3 scenario. -/
def stC3 : CrawlState :=
  { graph := harvestMerge "r" (seedGraph cfgT "r" (some "Root") "Hr")
      [("100", "T100", some "r", "H100")],
    visited := [], queue := ["r"] }

/-- Browser for the C2 scenario: the URL `U` queued under harvested id
`100` renders identity `101`. -/
def browserC2 : Browser :=
  { nav := fun u =>
      if u = "Hr" then .ok { cid := some "r", title := some "Root", parent := none, currentUrl := "Hr" }
      else if u = "https://h/display/SP/P1" then .ok { cid := some "100", title := none, parent := none, currentUrl := "https://h/display/SP/P1" }
      else if u = "U" then .ok { cid := some "101", title := some "T101", parent := none, currentUrl := "U" }
      else .ok { cid := none, title := none, parent := none, currentUrl := u },
    anchors := fun u => if u = "Hr" then ["https://h/display/SP/P1"] else [] }

/-- Seed + harvested start state for the C2 scenario (node `100` was
harvested with href `U`). -/
def stC2 : CrawlState :=
  { graph := harvestMerge "r" (seedGraph cfgT "r" (some "Root") "Hr")
      [("100", "T100", some "r", "U")],
    visited := [], queue := ["r"] }

/-- Browser for the C4 scenario: rendering the root returns non-null
parent metadata `P`. -/
def browserC4 : Browser :=
  { nav := fun u =>
      if u = "Hr" then .ok { cid := some "r", title := none, parent := some "P", currentUrl := "Hr" }
      else .ok { cid := none, title := none, parent := none, currentUrl := u },
    anchors := fun _ => [] }

/-- Seeded start state for the C4 scenario. -/
def stC4 : CrawlState :=
  { graph := seedGraph cfgT "r" (some "Root") "Hr", visited := [], queue := ["r"] }

/-- Browser for the C9 scenario: node `200` is discovered through a
link, but navigating its first-known (harvested) href `H200` throws
inside `driver.get`. -/
def browserC9 : Browser :=
  { nav := fun u =>
      if u = "Hr" then .ok { cid := some "r", title := some "Root", parent := none, currentUrl := "Hr" }
      else if u = "https://h/display/SP/Two" then .ok { cid := some "200", title := none, parent := none, currentUrl := "https://h/display/SP/Two" }
      else if u = "H200" then .error ()
      else .ok { cid := none, title := none, parent := none, currentUrl := u },
    anchors := fun u => if u = "Hr" then ["https://h/display/SP/Two"] else [] }

/-- Seed + harvested start state for the C9 scenario. -/
def stC9 : CrawlState :=
  { graph := harvestMerge "r" (seedGraph cfgT "r" (some "Root") "Hr")
      [("200", "", none, "H200")],
    visited := [], queue := ["r"] }

/-- Browser for the C9 witness: rendering the dequeued non-seed page
times out (no identity), and its DOM shows no anchors. -/
def browserC9w : Browser :=
  { nav := fun u =>
      if u = "H200" then .ok { cid := none, title := none, parent := none, currentUrl := "H200" }
      else .ok { cid := none, title := none, parent := none, currentUrl := u },
    anchors := fun _ => [] }

/-- Mid-crawl state for the C9 witness: the root was visited, node
`200` (href `H200`) is dequeued next. -/
def stC9w : CrawlState :=
  { graph := harvestMerge "r" (seedGraph cfgT "r" (some "Root") "Hr")
      [("200", "", some "r", "H200")],
    visited := ["r"], queue := ["200"] }

/-- The graph of the C6 counterexample: three siblings under root `r`
titled `".a-2"`, `"a"`, `"a"`. -/
def graphC6 : SpaceGraph :=
  let g : SpaceGraph := { space_key := "SP" }
  let g := g.set_parent "r" none
  let g := (g.get_or_create "9").fillTitle "9" ".a-2"
  let g := g.set_parent "9" (some "r")
  let g := (g.get_or_create "1").fillTitle "1" "a"
  let g := g.set_parent "1" (some "r")
  let g := (g.get_or_create "2").fillTitle "2" "a"
  let g := g.set_parent "2" (some "r")
  g

/-- The graph of the C7 scenarios: nodes `aid` (title `A`) and `bid`
(title `B`). -/
def graphC7 : SpaceGraph :=
  let g : SpaceGraph := { space_key := "SP" }
  let g := (g.get_or_create "aid").fillTitle "aid" "A"
  (g.get_or_create "bid").fillTitle "bid" "B"

/-- Map `id_to_folder` of the layout assumed by the claim: `aid` lives in
`root/x`, `bid` in `root/y`. -/
def folderC7 : String → String :=
  fun i => if i = "aid" then "root/x" else if i = "bid" then "root/y" else ""

/-- Map `id_to_path_html` of that layout. -/
def pathHtmlC7 : String → Option String :=
  fun i => if i = "aid" then some "root/x/A.html"
           else if i = "bid" then some "root/y/B.html" else none

/-- The graph of the C1 counterexample: `B` is a child of `A`, then
`set_parent("A", "B")` is requested — `B` is a descendant of `A` at
call time. -/
def graphC1 : SpaceGraph :=
  ((SpaceGraph.mk "SP" [] none).set_parent "B" (some "A")).set_parent "A" (some "B")

/-- Configuration of the C8 counterexample: the configured origin is
`https://h.example`. -/
def cfgC8 : Config := { baseUrl := "https://h.example", spaceKey := "SP" }

/-- The graph of the C10 witness: `c` is a child of `p1`. -/
def graphC10 : SpaceGraph :=
  (SpaceGraph.mk "SP" [] none).set_parent "c" (some "p1")

/-- Browser for the C4 witness: rendering the root returns no parent
metadata and the page shows no anchors. -/
def browserC4w : Browser :=
  { nav := fun u =>
      if u = "Hr" then .ok { cid := some "r", title := none, parent := none, currentUrl := "Hr" }
      else .ok { cid := none, title := none, parent := none, currentUrl := u },
    anchors := fun _ => [] }

/-- The processed iteration of the C4 witness. -/
def stepC4w : SpaceGraph × List String × String :=
  match crawlStep cfgT browserC4w "r" (seedGraph cfgT "r" (some "Root") "Hr") ["r"] [] "r" with
  | Except.ok o => o
  | Except.error _ => (seedGraph cfgT "r" (some "Root") "Hr", [], "r")

/-- The processed iteration of the C2 witness: id `100` is dequeued
and renders `101`. -/
def stepC2w : SpaceGraph × List String × String :=
  match crawlStep cfgT browserC2 "r" stC2.graph ["r", "100"] [] "100" with
  | Except.ok o => o
  | Except.error _ => (stC2.graph, [], "100")

/-- The final state of the C3 witness run. -/
def outC3 : CrawlState × Bool :=
  match crawlLoop cfgT browserC3 "r" 9 stC3 with
  | Except.ok p => p
  | Except.error _ => (stC3, false)

/-- The slug assignment of the C6 witness: two siblings titled `A`. -/
def c6wOut : List (String × String) :=
  (assignSlugsAux [("1", some "A"), ("2", some "A")] []).1

/-! ## Basic lemmas about the node dict and set model -/

theorem addToSet_mem_old {xs : List String} {x y : String} (h : y ∈ xs) :
    y ∈ addToSet xs x := by
  unfold addToSet
  split
  · exact h
  · exact List.mem_append_left _ h

theorem addToSet_mem_self (xs : List String) (x : String) : x ∈ addToSet xs x := by
  unfold addToSet
  split
  · assumption
  · exact List.mem_append_right _ (List.mem_singleton.mpr rfl)

theorem lookupNode_mem {ns : List (String × PageNode)} {pid : String} {n : PageNode}
    (h : lookupNode ns pid = some n) : pid ∈ idsList ns := by
  induction ns with
  | nil => simp [lookupNode] at h
  | cons hd tl ih =>
    rw [lookupNode] at h
    by_cases hk : hd.1 = pid
    · simp [idsList, hk]
    · rw [if_neg hk] at h
      exact List.mem_cons_of_mem _ (ih h)

theorem lookupNode_eq_none {ns : List (String × PageNode)} {pid : String}
    (h : lookupNode ns pid = none) : pid ∉ idsList ns := by
  induction ns with
  | nil => simp [idsList]
  | cons hd tl ih =>
    rw [lookupNode] at h
    by_cases hk : hd.1 = pid
    · rw [if_pos hk] at h; exact absurd h (by simp)
    · rw [if_neg hk] at h
      simp only [idsList, List.map_cons, List.mem_cons]
      rintro (he | hm)
      · exact hk he.symm
      · exact ih h hm

theorem lookupNode_append_left {ns ms : List (String × PageNode)} {pid : String}
    {n : PageNode} (h : lookupNode ns pid = some n) :
    lookupNode (ns ++ ms) pid = some n := by
  induction ns with
  | nil => simp [lookupNode] at h
  | cons hd tl ih =>
    rw [lookupNode] at h
    rw [List.cons_append, lookupNode]
    by_cases hk : hd.1 = pid
    · rwa [if_pos hk] at h ⊢
    · rw [if_neg hk] at h ⊢
      exact ih h

theorem idsList_append (ns ms : List (String × PageNode)) :
    idsList (ns ++ ms) = idsList ns ++ idsList ms := by
  simp [idsList]

theorem idsList_updateNode (ns : List (String × PageNode)) (pid : String)
    (f : PageNode → PageNode) : idsList (updateNode ns pid f) = idsList ns := by
  induction ns with
  | nil => rfl
  | cons hd tl ih =>
    obtain ⟨k, v⟩ := hd
    rw [updateNode]
    by_cases hk : k = pid
    · simp [idsList, hk]
    · simp only [if_neg hk, idsList, List.map_cons, List.cons.injEq, true_and]
      exact ih

theorem lookupNode_updateNode (ns : List (String × PageNode)) (pid : String)
    (f : PageNode → PageNode) (q : String) :
    lookupNode (updateNode ns pid f) q =
      if q = pid then (lookupNode ns q).map f else lookupNode ns q := by
  induction ns with
  | nil => simp [lookupNode, updateNode]
  | cons hd tl ih =>
    obtain ⟨k, v⟩ := hd
    rw [updateNode]
    by_cases hk : k = pid
    · rw [if_pos hk]
      by_cases hq : q = pid
      · subst hq
        rw [lookupNode, lookupNode, if_pos hk, if_pos hk]
        simp
      · rw [lookupNode, lookupNode, if_neg hq]
        have hkq : ¬ k = q := fun he => hq (he ▸ hk ▸ rfl)
        rw [if_neg hkq, if_neg hkq]
    · rw [if_neg hk, lookupNode, lookupNode]
      by_cases hkq : k = q
      · rw [if_pos hkq, if_pos hkq]
        have hq : ¬ q = pid := fun he => hk (hkq ▸ he)
        rw [if_neg hq]
      · rw [if_neg hkq, if_neg hkq, ih]

/-! ## Lemmas about the graph operations -/

theorem lookupNode_updateNode_self {ns : List (String × PageNode)} {pid : String}
    {n : PageNode} (f : PageNode → PageNode) (h : lookupNode ns pid = some n) :
    lookupNode (updateNode ns pid f) pid = some (f n) := by
  rw [lookupNode_updateNode, if_pos rfl, h]
  rfl

theorem lookupNode_updateNode_other {ns : List (String × PageNode)} {pid q : String}
    (f : PageNode → PageNode) (h : q ≠ pid) :
    lookupNode (updateNode ns pid f) q = lookupNode ns q := by
  rw [lookupNode_updateNode, if_neg h]

theorem lookupNode_append_right {ns : List (String × PageNode)} (ms : List (String × PageNode))
    {pid : String} (h : lookupNode ns pid = none) :
    lookupNode (ns ++ ms) pid = lookupNode ms pid := by
  induction ns with
  | nil => rfl
  | cons hd tl ih =>
    rw [lookupNode] at h
    rw [List.cons_append, lookupNode]
    by_cases hk : hd.1 = pid
    · rw [if_pos hk] at h; exact absurd h (by simp)
    · rw [if_neg hk] at h ⊢
      exact ih h

theorem mem_lookup_exists {ns : List (String × PageNode)} {pid : String}
    (h : pid ∈ idsList ns) : ∃ n, lookupNode ns pid = some n := by
  cases hl : lookupNode ns pid with
  | none => exact absurd h (lookupNode_eq_none hl)
  | some n => exact ⟨n, rfl⟩

theorem goc_nodes_found {g : SpaceGraph} {pid : String} {n : PageNode}
    (h : lookupNode g.nodes pid = some n) : (g.get_or_create pid).nodes = g.nodes := by
  unfold SpaceGraph.get_or_create
  rw [h]

theorem goc_nodes_new {g : SpaceGraph} {pid : String}
    (h : lookupNode g.nodes pid = none) :
    (g.get_or_create pid).nodes = g.nodes ++ [(pid, { id := pid, space_key := g.space_key })] := by
  unfold SpaceGraph.get_or_create
  rw [h]

theorem goc_lookup_of_found {g : SpaceGraph} {q : String} {n : PageNode} (pid : String)
    (h : lookupNode g.nodes q = some n) :
    lookupNode (g.get_or_create pid).nodes q = some n := by
  cases hl : lookupNode g.nodes pid with
  | some m => rw [goc_nodes_found hl]; exact h
  | none => rw [goc_nodes_new hl]; exact lookupNode_append_left h

theorem goc_ids_mono {g : SpaceGraph} {x : String} (pid : String)
    (h : x ∈ idsList g.nodes) : x ∈ idsList (g.get_or_create pid).nodes := by
  cases hl : lookupNode g.nodes pid with
  | some m => rw [goc_nodes_found hl]; exact h
  | none =>
    rw [goc_nodes_new hl, idsList_append]
    exact List.mem_append_left _ h

theorem goc_mem (g : SpaceGraph) (pid : String) :
    pid ∈ idsList (g.get_or_create pid).nodes := by
  cases hl : lookupNode g.nodes pid with
  | some m => rw [goc_nodes_found hl]; exact lookupNode_mem hl
  | none =>
    rw [goc_nodes_new hl, idsList_append]
    exact List.mem_append_right _ (by simp [idsList])

theorem goc_nodup {g : SpaceGraph} (pid : String)
    (h : (idsList g.nodes).Nodup) : (idsList (g.get_or_create pid).nodes).Nodup := by
  cases hl : lookupNode g.nodes pid with
  | some m => rw [goc_nodes_found hl]; exact h
  | none =>
    rw [goc_nodes_new hl, idsList_append]
    have hnot := lookupNode_eq_none hl
    refine List.Nodup.append h (by simp [idsList]) ?_
    intro a ha hb
    simp only [idsList, List.map_cons, List.map_nil, List.mem_singleton] at hb
    exact hnot (hb ▸ ha)

theorem goc_lookup_exists (g : SpaceGraph) (pid : String) :
    ∃ n, lookupNode (g.get_or_create pid).nodes pid = some n :=
  mem_lookup_exists (goc_mem g pid)

theorem goc_hrefs_mono {g : SpaceGraph} {i u : String} (pid : String)
    (h : u ∈ hrefsOf g.nodes i) : u ∈ hrefsOf (g.get_or_create pid).nodes i := by
  unfold hrefsOf at h ⊢
  cases hl : lookupNode g.nodes i with
  | none => rw [hl] at h; simp at h
  | some n =>
    rw [hl] at h
    rw [goc_lookup_of_found pid hl]
    exact h

/-! ### Monotonicity -/

theorem gmono_refl (ns : List (String × PageNode)) : gmono ns ns :=
  ⟨fun _ h => h, fun _ _ h => h, fun h => h⟩

theorem gmono_trans {n1 n2 n3 : List (String × PageNode)} (h12 : gmono n1 n2)
    (h23 : gmono n2 n3) : gmono n1 n3 :=
  ⟨fun x h => h23.1 x (h12.1 x h),
   fun i u h => h23.2.1 i u (h12.2.1 i u h),
   fun h => h23.2.2 (h12.2.2 h)⟩

theorem gmono_updateNode (ns : List (String × PageNode)) (pid : String)
    (f : PageNode → PageNode) (hf : ∀ n u, u ∈ n.hrefs → u ∈ (f n).hrefs) :
    gmono ns (updateNode ns pid f) := by
  refine ⟨?_, ?_, ?_⟩
  · intro x hx
    rw [idsList_updateNode]
    exact hx
  · intro i u hu
    unfold hrefsOf at hu ⊢
    rw [lookupNode_updateNode]
    by_cases hq : i = pid
    · rw [if_pos hq]
      cases hl : lookupNode ns i with
      | none => rw [hl] at hu; simp at hu
      | some n =>
        rw [hl] at hu
        simp only [Option.map_some', Option.getD_some] at hu ⊢
        exact hf n u hu
    · rw [if_neg hq]; exact hu
  · intro h
    rw [idsList_updateNode]
    exact h

theorem gmono_goc (g : SpaceGraph) (pid : String) :
    gmono g.nodes (g.get_or_create pid).nodes :=
  ⟨fun _ h => goc_ids_mono pid h, fun _ _ h => goc_hrefs_mono pid h, fun h => goc_nodup pid h⟩

theorem gmono_addHref (g : SpaceGraph) (pid url : String) :
    gmono g.nodes (g.addHref pid url).nodes :=
  gmono_updateNode g.nodes pid _ (fun _ _ hu => addToSet_mem_old hu)

theorem gmono_fillTitle (g : SpaceGraph) (pid t : String) :
    gmono g.nodes (g.fillTitle pid t).nodes :=
  gmono_updateNode g.nodes pid _ (fun n u hu => by
    show u ∈ (if optFalsy n.title then { n with title := some t } else n).hrefs
    split
    · exact hu
    · exact hu)

theorem set_parent_some_nodes (g : SpaceGraph) (child p : String) :
    (g.set_parent child (some p)).nodes =
      updateNode (updateNode ((g.get_or_create child).get_or_create p).nodes child (fun n => { n with parent_id := some p })) p (fun n => { n with children := addToSet n.children child }) := rfl

theorem set_parent_none_nodes (g : SpaceGraph) (child : String) :
    (g.set_parent child none).nodes =
      updateNode (g.get_or_create child).nodes child (fun n => { n with parent_id := none }) := rfl

theorem set_parent_none_root (g : SpaceGraph) (child : String) :
    (g.set_parent child none).root_id = some child := rfl

theorem gmono_set_parent (g : SpaceGraph) (child : String) (parent : Option String) :
    gmono g.nodes (g.set_parent child parent).nodes := by
  cases parent with
  | some p =>
    rw [set_parent_some_nodes]
    have h3 := gmono_updateNode ((g.get_or_create child).get_or_create p).nodes child
      (fun n => { n with parent_id := some p }) (fun _ _ hu => hu)
    have h4 := gmono_updateNode
      (updateNode ((g.get_or_create child).get_or_create p).nodes child (fun n => { n with parent_id := some p })) p
      (fun n => { n with children := addToSet n.children child }) (fun _ _ hu => hu)
    exact gmono_trans (gmono_goc g child) (gmono_trans (gmono_goc (g.get_or_create child) p)
      (gmono_trans h3 h4))
  | none =>
    rw [set_parent_none_nodes]
    exact gmono_trans (gmono_goc g child) (gmono_updateNode _ child _ (fun _ _ hu => hu))

theorem hrefsOf_addHref_self {g : SpaceGraph} {pid : String} (url : String)
    (h : pid ∈ idsList g.nodes) : url ∈ hrefsOf (g.addHref pid url).nodes pid := by
  obtain ⟨n, hn⟩ := mem_lookup_exists h
  show url ∈ hrefsOf (updateNode g.nodes pid _) pid
  unfold hrefsOf
  rw [lookupNode_updateNode_self _ hn]
  exact addToSet_mem_self _ _

/-! ### What `set_parent` does and does not touch -/

/-- After `set_parent(child, parent)` with non-null `parent`, the
child's node exists and carries `parent_id = parent`. -/
theorem set_parent_child_parent (g : SpaceGraph) (child p : String) :
    ∃ nc, lookupNode (g.set_parent child (some p)).nodes child = some nc ∧
      nc.parent_id = some p := by
  rw [set_parent_some_nodes]
  obtain ⟨m, hm⟩ := mem_lookup_exists
    (goc_ids_mono p (goc_mem g child) :
      child ∈ idsList ((g.get_or_create child).get_or_create p).nodes)
  have h1 := lookupNode_updateNode_self (fun n => { n with parent_id := some p }) hm
  by_cases hcp : child = p
  · rw [hcp] at h1 ⊢
    have h2 := lookupNode_updateNode_self
      (fun n => { n with children := addToSet n.children p }) h1
    exact ⟨_, h2, rfl⟩
  · refine ⟨{ m with parent_id := some p }, ?_, rfl⟩
    rw [lookupNode_updateNode_other _ hcp, h1]

/-- After `set_parent(child, parent)` with non-null `parent`, the
parent's node exists and its children set contains `child`. -/
theorem set_parent_adds_child (g : SpaceGraph) (child p : String) :
    ∃ np, lookupNode (g.set_parent child (some p)).nodes p = some np ∧
      child ∈ np.children := by
  rw [set_parent_some_nodes]
  obtain ⟨m, hm⟩ := mem_lookup_exists
    (goc_mem (g.get_or_create child) p :
      p ∈ idsList ((g.get_or_create child).get_or_create p).nodes)
  by_cases hpc : p = child
  · rw [hpc] at hm ⊢
    have h1 := lookupNode_updateNode_self (fun n => { n with parent_id := some child }) hm
    have h2 := lookupNode_updateNode_self
      (fun n => { n with children := addToSet n.children child }) h1
    exact ⟨_, h2, addToSet_mem_self _ _⟩
  · have h1 : lookupNode (updateNode ((g.get_or_create child).get_or_create p).nodes child (fun n => { n with parent_id := some p })) p = some m := by
      rw [lookupNode_updateNode_other _ hpc, hm]
    have h2 := lookupNode_updateNode_self
      (fun n => { n with children := addToSet n.children child }) h1
    exact ⟨_, h2, addToSet_mem_self _ _⟩

/-- After `set_parent(child, None)` the child's node has `parent_id =
None` and is recorded as the graph root. -/
theorem set_parent_none_self (g : SpaceGraph) (child : String) :
    parentIdOf (g.set_parent child none).nodes child = some none ∧
      (g.set_parent child none).root_id = some child := by
  refine ⟨?_, set_parent_none_root g child⟩
  rw [set_parent_none_nodes]
  obtain ⟨m, hm⟩ := goc_lookup_exists g child
  unfold parentIdOf
  rw [lookupNode_updateNode_self _ hm]
  rfl

theorem children_updateNode_mono (ns : List (String × PageNode)) (pid : String)
    (f : PageNode → PageNode) (hf : ∀ n x, x ∈ n.children → x ∈ (f n).children)
    {i x : String} (h : x ∈ childrenOf ns i) : x ∈ childrenOf (updateNode ns pid f) i := by
  unfold childrenOf at h ⊢
  rw [lookupNode_updateNode]
  by_cases hq : i = pid
  · rw [if_pos hq]
    cases hl : lookupNode ns i with
    | none => rw [hl] at h; simp at h
    | some n =>
      rw [hl] at h
      simp only [Option.map_some', Option.getD_some] at h ⊢
      exact hf n x h
  · rw [if_neg hq]; exact h

theorem children_goc_mono (pid : String) {g : SpaceGraph} {i x : String}
    (h : x ∈ childrenOf g.nodes i) : x ∈ childrenOf (g.get_or_create pid).nodes i := by
  unfold childrenOf at h ⊢
  cases hl : lookupNode g.nodes i with
  | none => rw [hl] at h; simp at h
  | some n =>
    rw [hl] at h
    rw [goc_lookup_of_found pid hl]
    exact h

/-- Method `set_parent` never removes a member from any children set
(the former parent keeps the child). -/
theorem children_set_parent_mono (g : SpaceGraph) (child : String) (parent : Option String)
    {i x : String} (h : x ∈ childrenOf g.nodes i) :
    x ∈ childrenOf (g.set_parent child parent).nodes i := by
  cases parent with
  | some p =>
    rw [set_parent_some_nodes]
    exact children_updateNode_mono _ p (fun n => { n with children := addToSet n.children child })
      (fun _ _ hx => addToSet_mem_old hx)
      (children_updateNode_mono _ child (fun n => { n with parent_id := some p })
        (fun _ _ hx => hx)
        (children_goc_mono p (children_goc_mono child h)))
  | none =>
    rw [set_parent_none_nodes]
    exact children_updateNode_mono _ child (fun n => { n with parent_id := none })
      (fun _ _ hx => hx) (children_goc_mono child h)

theorem parentIdOf_updateNode_pres (ns : List (String × PageNode)) (pid : String)
    (f : PageNode → PageNode) (hf : ∀ n, (f n).parent_id = n.parent_id) (i : String) :
    parentIdOf (updateNode ns pid f) i = parentIdOf ns i := by
  unfold parentIdOf
  rw [lookupNode_updateNode]
  by_cases hq : i = pid
  · rw [if_pos hq]
    cases hl : lookupNode ns i with
    | none => rfl
    | some n => simp [hf n]
  · rw [if_neg hq]

theorem parentIdOf_updateNode_other (ns : List (String × PageNode)) (pid : String)
    (f : PageNode → PageNode) {i : String} (h : i ≠ pid) :
    parentIdOf (updateNode ns pid f) i = parentIdOf ns i := by
  unfold parentIdOf
  rw [lookupNode_updateNode_other _ h]

theorem parentIdOf_goc_pres (pid : String) {g : SpaceGraph} {i : String}
    (h : i ∈ idsList g.nodes) :
    parentIdOf (g.get_or_create pid).nodes i = parentIdOf g.nodes i := by
  obtain ⟨n, hn⟩ := mem_lookup_exists h
  unfold parentIdOf
  rw [hn, goc_lookup_of_found pid hn]

/-- Calling `set_parent(child, parent)` leaves the `parent_id` of any
other present node unchanged. -/
theorem parentIdOf_set_parent_other (g : SpaceGraph) (child : String) (parent : Option String)
    {i : String} (hne : i ≠ child) (hi : i ∈ idsList g.nodes) :
    parentIdOf (g.set_parent child parent).nodes i = parentIdOf g.nodes i := by
  cases parent with
  | some p =>
    rw [set_parent_some_nodes]
    rw [parentIdOf_updateNode_pres _ p (fun n => { n with children := addToSet n.children child }) (fun _ => rfl) i]
    rw [parentIdOf_updateNode_other _ child _ hne]
    rw [parentIdOf_goc_pres p (goc_ids_mono child hi), parentIdOf_goc_pres child hi]
  | none =>
    rw [set_parent_none_nodes]
    rw [parentIdOf_updateNode_other _ child _ hne, parentIdOf_goc_pres child hi]

/-! ### Step-helper lemmas -/

theorem gmono_fillTitleStep (g : SpaceGraph) (pid : String) (t : Option String) :
    gmono g.nodes (fillTitleStep g pid t).nodes := by
  cases t with
  | none => exact gmono_refl _
  | some s =>
    show gmono g.nodes (if s = "" then g else g.fillTitle pid s).nodes
    split
    · exact gmono_refl _
    · exact gmono_fillTitle g pid s

theorem gmono_setParentStep (g : SpaceGraph) (pid : String) (p : Option String) :
    gmono g.nodes (setParentStep g pid p).nodes := by
  cases p with
  | none => exact gmono_refl _
  | some s =>
    show gmono g.nodes (if s = "" then g else g.set_parent pid (some s)).nodes
    split
    · exact gmono_refl _
    · exact gmono_set_parent g pid (some s)

theorem gmono_parentAssignStep (rootId : String) (g : SpaceGraph) (cur : String)
    (p : Option String) : gmono g.nodes (parentAssignStep rootId g cur p).nodes := by
  cases p with
  | none =>
    show gmono g.nodes (if cur = rootId then g.set_parent cur none else g).nodes
    split
    · exact gmono_set_parent g cur none
    · exact gmono_refl _
  | some s =>
    show gmono g.nodes (if s = "" then (if cur = rootId then g.set_parent cur none else g) else g.set_parent cur (some s)).nodes
    split
    · split
      · exact gmono_set_parent g cur none
      · exact gmono_refl _
    · exact gmono_set_parent g cur (some s)

theorem parentIdOf_some_mem {ns : List (String × PageNode)} {i : String}
    {v : Option String} (h : parentIdOf ns i = some v) : i ∈ idsList ns := by
  unfold parentIdOf at h
  cases hl : lookupNode ns i with
  | none => rw [hl] at h; simp at h
  | some n => exact lookupNode_mem hl

theorem parentIdOf_addHref_pres (g : SpaceGraph) (pid url : String) (i : String) :
    parentIdOf (g.addHref pid url).nodes i = parentIdOf g.nodes i :=
  parentIdOf_updateNode_pres g.nodes pid
    (fun n => { n with hrefs := addToSet n.hrefs url }) (fun _ => rfl) i

theorem parentIdOf_fillTitleStep_pres (g : SpaceGraph) (pid : String) (t : Option String)
    (i : String) : parentIdOf (fillTitleStep g pid t).nodes i = parentIdOf g.nodes i := by
  cases t with
  | none => rfl
  | some s =>
    show parentIdOf (if s = "" then g else g.fillTitle pid s).nodes i = _
    split
    · rfl
    · exact parentIdOf_updateNode_pres g.nodes pid _ (fun n => by
        show (if optFalsy n.title then { n with title := some s } else n).parent_id = n.parent_id
        split <;> rfl) i

/-- The `setParentStep` of link discovery keeps the root parent-less,
provided it is not asked to give the root a truthy parent. -/
theorem rootParent_setParentStep {g : SpaceGraph} {rootId : String} (pid : String)
    (p : Option String) (hr : parentIdOf g.nodes rootId = some none)
    (hsafe : pid = rootId → optFalsy p = true) :
    parentIdOf (setParentStep g pid p).nodes rootId = some none := by
  cases p with
  | none => exact hr
  | some s =>
    show parentIdOf (if s = "" then g else g.set_parent pid (some s)).nodes rootId = some none
    by_cases hs : s = ""
    · rw [if_pos hs]; exact hr
    · rw [if_neg hs]
      by_cases hpr : pid = rootId
      · have := hsafe hpr
        simp [optFalsy, hs] at this
      · rw [parentIdOf_set_parent_other g pid (some s) (fun he => hpr he.symm)
          (parentIdOf_some_mem hr)]
        exact hr

/-! ### `processLink` preserves the queue and graph invariants -/

theorem QInv_mono {visited : List String} {ns ns' : List (String × PageNode)}
    {q : List String} (h : QInv visited ns q)
    (hm : ∀ x ∈ idsList ns, x ∈ idsList ns') : QInv visited ns' q :=
  ⟨h.1, h.2.1, fun x hx => hm x (h.2.2 x hx)⟩

theorem QInv_step {visited : List String} {ns ns' : List (String × PageNode)}
    {q : List String} {pid : String} (h : QInv visited ns q)
    (hm : ∀ x ∈ idsList ns, x ∈ idsList ns') (hp : pid ∈ idsList ns') :
    QInv visited ns' (if pid ∉ visited ∧ pid ∉ q then q ++ [pid] else q) := by
  by_cases hc : pid ∉ visited ∧ pid ∉ q
  · rw [if_pos hc]
    refine ⟨?_, ?_, ?_⟩
    · refine List.Nodup.append h.1 (List.nodup_singleton _) ?_
      intro a ha hb
      rw [List.mem_singleton] at hb
      exact hc.2 (hb ▸ ha)
    · intro x hx
      rcases List.mem_append.mp hx with hx | hx
      · exact h.2.1 x hx
      · rw [List.mem_singleton] at hx
        exact hx ▸ hc.1
    · intro x hx
      rcases List.mem_append.mp hx with hx | hx
      · exact hm x (h.2.2 x hx)
      · rw [List.mem_singleton] at hx
        exact hx ▸ hp
  · rw [if_neg hc]
    exact QInv_mono h hm

/-- Branch equations of `processLink`. -/
theorem processLink_pid_eq (B : Browser) (visited : List String) (g : SpaceGraph)
    (q : List String) {link pid : String} (hp : parse_page_id_from_url link = some pid) :
    processLink B visited (g, q) link =
      ((g.get_or_create pid).addHref pid link,
       if pid ∉ visited ∧ pid ∉ q then q ++ [pid] else q) := by
  unfold processLink
  rw [hp]

theorem processLink_err_eq (B : Browser) (visited : List String) (g : SpaceGraph)
    (q : List String) {link : String} {e : Unit} (hp : parse_page_id_from_url link = none)
    (hn : B.nav link = Except.error e) :
    processLink B visited (g, q) link = (g, q) := by
  unfold processLink
  rw [hp, hn]

theorem processLink_nocid_eq (B : Browser) (visited : List String) (g : SpaceGraph)
    (q : List String) {link : String} {r : RenderResult}
    (hp : parse_page_id_from_url link = none) (hn : B.nav link = Except.ok r)
    (hc : r.cid = none) : processLink B visited (g, q) link = (g, q) := by
  unfold processLink
  rw [hp, hn]
  dsimp only
  rw [hc]

theorem processLink_ecid_eq (B : Browser) (visited : List String) (g : SpaceGraph)
    (q : List String) {link : String} {r : RenderResult} {ecid : String}
    (hp : parse_page_id_from_url link = none) (hn : B.nav link = Except.ok r)
    (hc : r.cid = some ecid) :
    processLink B visited (g, q) link =
      (setParentStep (fillTitleStep ((g.get_or_create ecid).addHref ecid link) ecid r.title) ecid r.parent,
       if ecid ∉ visited ∧ ecid ∉ q then q ++ [ecid] else q) := by
  unfold processLink
  rw [hp, hn]
  dsimp only
  rw [hc]

theorem processLink_gmono (B : Browser) (visited : List String) (g : SpaceGraph)
    (q : List String) (link : String) :
    gmono g.nodes (processLink B visited (g, q) link).1.nodes := by
  cases hp : parse_page_id_from_url link with
  | some pid =>
    rw [processLink_pid_eq B visited g q hp]
    exact gmono_trans (gmono_goc g pid) (gmono_addHref (g.get_or_create pid) pid link)
  | none =>
    cases hn : B.nav link with
    | error e =>
      rw [processLink_err_eq B visited g q hp hn]
      exact gmono_refl _
    | ok r =>
      cases hc : r.cid with
      | none =>
        rw [processLink_nocid_eq B visited g q hp hn hc]
        exact gmono_refl _
      | some ecid =>
        rw [processLink_ecid_eq B visited g q hp hn hc]
        have h1 := gmono_trans (gmono_goc g ecid)
          (gmono_addHref (g.get_or_create ecid) ecid link)
        have h2 := gmono_fillTitleStep ((g.get_or_create ecid).addHref ecid link) ecid r.title
        have h3 := gmono_setParentStep
          (fillTitleStep ((g.get_or_create ecid).addHref ecid link) ecid r.title) ecid r.parent
        exact gmono_trans h1 (gmono_trans h2 h3)

theorem processLink_QInv (B : Browser) {visited : List String} {g : SpaceGraph}
    {q : List String} (link : String) (h : QInv visited g.nodes q) :
    QInv visited (processLink B visited (g, q) link).1.nodes
      (processLink B visited (g, q) link).2 := by
  cases hp : parse_page_id_from_url link with
  | some pid =>
    rw [processLink_pid_eq B visited g q hp]
    have hmono := gmono_trans (gmono_goc g pid) (gmono_addHref (g.get_or_create pid) pid link)
    exact QInv_step h hmono.1
      ((gmono_addHref (g.get_or_create pid) pid link).1 pid (goc_mem g pid))
  | none =>
    cases hn : B.nav link with
    | error e =>
      rw [processLink_err_eq B visited g q hp hn]
      exact h
    | ok r =>
      cases hc : r.cid with
      | none =>
        rw [processLink_nocid_eq B visited g q hp hn hc]
        exact h
      | some ecid =>
        rw [processLink_ecid_eq B visited g q hp hn hc]
        have h1 := gmono_trans (gmono_goc g ecid)
          (gmono_addHref (g.get_or_create ecid) ecid link)
        have h2 := gmono_fillTitleStep ((g.get_or_create ecid).addHref ecid link) ecid r.title
        have h3 := gmono_setParentStep
          (fillTitleStep ((g.get_or_create ecid).addHref ecid link) ecid r.title) ecid r.parent
        have hmono := gmono_trans h1 (gmono_trans h2 h3)
        have hecid := h3.1 ecid (h2.1 ecid
          ((gmono_addHref (g.get_or_create ecid) ecid link).1 ecid (goc_mem g ecid)))
        exact QInv_step h hmono.1 hecid

/-- Link discovery keeps the root parent-less as long as no discovered
link renders as the root with a truthy parent. -/
theorem processLink_rootParent (B : Browser) {visited : List String} {g : SpaceGraph}
    {q : List String} {rootId : String} (link : String)
    (hr : parentIdOf g.nodes rootId = some none)
    (hsafe : ∀ r, B.nav link = Except.ok r → ∀ e, r.cid = some e → e = rootId →
      optFalsy r.parent = true) :
    parentIdOf (processLink B visited (g, q) link).1.nodes rootId = some none := by
  have hroot := parentIdOf_some_mem hr
  cases hp : parse_page_id_from_url link with
  | some pid =>
    rw [processLink_pid_eq B visited g q hp]
    show parentIdOf ((g.get_or_create pid).addHref pid link).nodes rootId = some none
    rw [parentIdOf_addHref_pres, parentIdOf_goc_pres pid hroot]
    exact hr
  | none =>
    cases hn : B.nav link with
    | error e =>
      rw [processLink_err_eq B visited g q hp hn]
      exact hr
    | ok r =>
      cases hc : r.cid with
      | none =>
        rw [processLink_nocid_eq B visited g q hp hn hc]
        exact hr
      | some ecid =>
        rw [processLink_ecid_eq B visited g q hp hn hc]
        have hr1 : parentIdOf ((g.get_or_create ecid).addHref ecid link).nodes rootId = some none := by
          rw [parentIdOf_addHref_pres, parentIdOf_goc_pres ecid hroot]
          exact hr
        have hr2 : parentIdOf (fillTitleStep ((g.get_or_create ecid).addHref ecid link) ecid r.title).nodes rootId = some none := by
          rw [parentIdOf_fillTitleStep_pres]
          exact hr1
        exact rootParent_setParentStep ecid r.parent hr2 (fun he => hsafe r hn ecid hc he)

/-! ### Folding link discovery over all extracted links -/

theorem foldProcess_gmono (B : Browser) (visited : List String) (links : List String) :
    ∀ (g : SpaceGraph) (q : List String),
      gmono g.nodes (links.foldl (processLink B visited) (g, q)).1.nodes := by
  induction links with
  | nil => intro g q; exact gmono_refl _
  | cons l ls ih =>
    intro g q
    rw [List.foldl_cons]
    have h1 := processLink_gmono B visited g q l
    have h2 := ih (processLink B visited (g, q) l).1 (processLink B visited (g, q) l).2
    exact gmono_trans h1 h2

theorem foldProcess_QInv (B : Browser) (visited : List String) (links : List String) :
    ∀ (g : SpaceGraph) (q : List String), QInv visited g.nodes q →
      QInv visited (links.foldl (processLink B visited) (g, q)).1.nodes
        (links.foldl (processLink B visited) (g, q)).2 := by
  induction links with
  | nil => intro g q h; exact h
  | cons l ls ih =>
    intro g q h
    rw [List.foldl_cons]
    exact ih (processLink B visited (g, q) l).1 (processLink B visited (g, q) l).2
      (processLink_QInv B l h)

theorem foldProcess_rootParent (B : Browser) (visited : List String) {rootId : String}
    (links : List String) :
    ∀ (g : SpaceGraph) (q : List String),
      parentIdOf g.nodes rootId = some none →
      (∀ link ∈ links, ∀ r, B.nav link = Except.ok r → ∀ e, r.cid = some e → e = rootId →
        optFalsy r.parent = true) →
      parentIdOf (links.foldl (processLink B visited) (g, q)).1.nodes rootId = some none := by
  induction links with
  | nil => intro g q h _; exact h
  | cons l ls ih =>
    intro g q h hsafe
    rw [List.foldl_cons]
    exact ih (processLink B visited (g, q) l).1 (processLink B visited (g, q) l).2
      (processLink_rootParent B l h (hsafe l (List.mem_cons_self l ls)))
      (fun link hl => hsafe link (List.mem_cons_of_mem l hl))

/-! ### The visit phase -/

theorem gmono_visitPhase (rootId : String) (g : SpaceGraph) (cur0 : String)
    (r : RenderResult) : gmono g.nodes (visitPhase rootId g cur0 r).1.nodes := by
  have h1 : gmono g.nodes (if effectiveCur r cur0 = cur0 then g else g.get_or_create (effectiveCur r cur0)).nodes := by
    split
    · exact gmono_refl _
    · exact gmono_goc g (effectiveCur r cur0)
  have h2 := gmono_addHref (if effectiveCur r cur0 = cur0 then g else g.get_or_create (effectiveCur r cur0)) (effectiveCur r cur0) r.currentUrl
  have h3 := gmono_fillTitleStep ((if effectiveCur r cur0 = cur0 then g else g.get_or_create (effectiveCur r cur0)).addHref (effectiveCur r cur0) r.currentUrl) (effectiveCur r cur0) r.title
  have h4 := gmono_parentAssignStep rootId (fillTitleStep ((if effectiveCur r cur0 = cur0 then g else g.get_or_create (effectiveCur r cur0)).addHref (effectiveCur r cur0) r.currentUrl) (effectiveCur r cur0) r.title) (effectiveCur r cur0) r.parent
  exact gmono_trans h1 (gmono_trans h2 (gmono_trans h3 h4))

theorem visitPhase_snd (rootId : String) (g : SpaceGraph) (cur0 : String)
    (r : RenderResult) : (visitPhase rootId g cur0 r).2 = effectiveCur r cur0 := rfl

theorem visitPhase_records_url (rootId : String) (g : SpaceGraph) (cur0 : String)
    (r : RenderResult) (h : cur0 ∈ idsList g.nodes) :
    r.currentUrl ∈ hrefsOf (visitPhase rootId g cur0 r).1.nodes (effectiveCur r cur0) ∧
      cur0 ∈ idsList (visitPhase rootId g cur0 r).1.nodes ∧
      effectiveCur r cur0 ∈ idsList (visitPhase rootId g cur0 r).1.nodes := by
  have hcur : effectiveCur r cur0 ∈ idsList (if effectiveCur r cur0 = cur0 then g else g.get_or_create (effectiveCur r cur0)).nodes := by
    split
    · next he => rw [he]; exact h
    · exact goc_mem g (effectiveCur r cur0)
  have hcur0 : cur0 ∈ idsList (if effectiveCur r cur0 = cur0 then g else g.get_or_create (effectiveCur r cur0)).nodes := by
    split
    · exact h
    · exact goc_ids_mono _ h
  have hurl := hrefsOf_addHref_self r.currentUrl hcur
  have h2 := gmono_addHref (if effectiveCur r cur0 = cur0 then g else g.get_or_create (effectiveCur r cur0)) (effectiveCur r cur0) r.currentUrl
  have h3 := gmono_fillTitleStep ((if effectiveCur r cur0 = cur0 then g else g.get_or_create (effectiveCur r cur0)).addHref (effectiveCur r cur0) r.currentUrl) (effectiveCur r cur0) r.title
  have h4 := gmono_parentAssignStep rootId (fillTitleStep ((if effectiveCur r cur0 = cur0 then g else g.get_or_create (effectiveCur r cur0)).addHref (effectiveCur r cur0) r.currentUrl) (effectiveCur r cur0) r.title) (effectiveCur r cur0) r.parent
  refine ⟨?_, ?_, ?_⟩
  · exact h4.2.1 _ _ (h3.2.1 _ _ hurl)
  · exact h4.1 _ (h3.1 _ (h2.1 _ hcur0))
  · exact h4.1 _ (h3.1 _ (h2.1 _ hcur))

/-! ### One processed iteration (`crawlStep`) -/

theorem crawlStep_node_eq (cfg : Config) (B : Browser) (rootId : String) (g : SpaceGraph)
    (visited queue : List String) (cur0 : String) {node : PageNode}
    (hl : lookupNode g.nodes cur0 = some node) {r : RenderResult}
    (hn : B.nav (hrefChoice cfg node cur0) = Except.ok r) :
    crawlStep cfg B rootId g visited queue cur0 =
      Except.ok
        (((extract_same_space_links cfg B (hrefChoice cfg node cur0)).foldl (processLink B visited) ((visitPhase rootId g cur0 r).1, queue)).1,
         ((extract_same_space_links cfg B (hrefChoice cfg node cur0)).foldl (processLink B visited) ((visitPhase rootId g cur0 r).1, queue)).2,
         (visitPhase rootId g cur0 r).2) := by
  unfold crawlStep
  rw [hl]
  dsimp only
  rw [hn]

theorem crawlStep_keyerr_eq (cfg : Config) (B : Browser) (rootId : String) (g : SpaceGraph)
    (visited queue : List String) (cur0 : String)
    (hl : lookupNode g.nodes cur0 = none) :
    crawlStep cfg B rootId g visited queue cur0 = Except.error () := by
  unfold crawlStep
  rw [hl]

theorem crawlStep_naverr_eq (cfg : Config) (B : Browser) (rootId : String) (g : SpaceGraph)
    (visited queue : List String) (cur0 : String) {node : PageNode}
    (hl : lookupNode g.nodes cur0 = some node) {e : Unit}
    (hn : B.nav (hrefChoice cfg node cur0) = Except.error e) :
    crawlStep cfg B rootId g visited queue cur0 = Except.error e := by
  unfold crawlStep
  rw [hl]
  dsimp only
  rw [hn]

theorem crawlStep_inv {cfg : Config} {B : Browser} {rootId : String} {g : SpaceGraph}
    {visitedA queue : List String} {cur0 : String} {out : SpaceGraph × List String × String}
    (hQ : QInv visitedA g.nodes queue)
    (hstep : crawlStep cfg B rootId g visitedA queue cur0 = Except.ok out) :
    gmono g.nodes out.1.nodes ∧ QInv visitedA out.1.nodes out.2.1 := by
  cases hl : lookupNode g.nodes cur0 with
  | none => rw [crawlStep_keyerr_eq cfg B rootId g visitedA queue cur0 hl] at hstep; cases hstep
  | some node =>
    cases hn : B.nav (hrefChoice cfg node cur0) with
    | error e =>
      rw [crawlStep_naverr_eq cfg B rootId g visitedA queue cur0 hl hn] at hstep
      cases hstep
    | ok r =>
      rw [crawlStep_node_eq cfg B rootId g visitedA queue cur0 hl hn] at hstep
      rw [Except.ok.injEq] at hstep
      subst hstep
      constructor
      · exact gmono_trans (gmono_visitPhase rootId g cur0 r)
          (foldProcess_gmono B visitedA _ (visitPhase rootId g cur0 r).1 queue)
      · exact foldProcess_QInv B visitedA _ (visitPhase rootId g cur0 r).1 queue
          (QInv_mono hQ (gmono_visitPhase rootId g cur0 r).1)

/-! ### The crawl loop -/

theorem crawlLoop_zero (cfg : Config) (B : Browser) (rootId : String) (st : CrawlState) :
    crawlLoop cfg B rootId 0 st = Except.ok (st, st.queue.isEmpty) := rfl

theorem crawlLoop_nil (cfg : Config) (B : Browser) (rootId : String) (fuel : Nat)
    (st : CrawlState) (hq : st.queue = []) :
    crawlLoop cfg B rootId (fuel + 1) st = Except.ok (st, true) := by
  rw [crawlLoop, hq]

theorem crawlLoop_cons (cfg : Config) (B : Browser) (rootId : String) (fuel : Nat)
    (st : CrawlState) {cur : String} {rest : List String} (hq : st.queue = cur :: rest) :
    crawlLoop cfg B rootId (fuel + 1) st =
      if cur ∈ st.visited then crawlLoop cfg B rootId fuel { st with queue := rest }
      else
        match crawlStep cfg B rootId st.graph (st.visited ++ [cur]) rest cur with
        | Except.error e => Except.error e
        | Except.ok out =>
          crawlLoop cfg B rootId fuel
            { graph := out.1, visited := st.visited ++ [cur], queue := out.2.1,
              renderedLog := st.renderedLog ++ [out.2.2] } := by
  rw [crawlLoop, hq]

/-- The central loop invariant: a successful run from an `LInv` state
lands in an `LInv` state, and the completion flag means the queue was
exhausted. -/
theorem crawlLoop_inv {cfg : Config} {B : Browser} {rootId : String} :
    ∀ (fuel : Nat) {st st' : CrawlState} {done : Bool}, LInv st →
      crawlLoop cfg B rootId fuel st = Except.ok (st', done) →
      LInv st' ∧ (done = true → st'.queue = []) := by
  intro fuel
  induction fuel with
  | zero =>
    intro st st' done h hrun
    rw [crawlLoop_zero] at hrun
    rw [Except.ok.injEq, Prod.mk.injEq] at hrun
    obtain ⟨h1, h2⟩ := hrun
    subst h1
    refine ⟨h, fun hd => ?_⟩
    rw [← h2] at hd
    exact List.isEmpty_iff.mp hd
  | succ fuel ih =>
    intro st st' done h hrun
    cases hq : st.queue with
    | nil =>
      rw [crawlLoop_nil cfg B rootId fuel st hq] at hrun
      rw [Except.ok.injEq, Prod.mk.injEq] at hrun
      obtain ⟨h1, _⟩ := hrun
      subst h1
      exact ⟨h, fun _ => hq⟩
    | cons cur rest =>
      rw [crawlLoop_cons cfg B rootId fuel st hq] at hrun
      obtain ⟨hNodup, hVNodup, hVin, hQ⟩ := h
      have hqn : (cur :: rest).Nodup := hq ▸ hQ.1
      have hqrest : QInv st.visited st.graph.nodes rest :=
        ⟨(List.nodup_cons.mp hqn).2,
         fun x hx => hQ.2.1 x (hq ▸ List.mem_cons_of_mem cur hx),
         fun x hx => hQ.2.2 x (hq ▸ List.mem_cons_of_mem cur hx)⟩
      by_cases hv : cur ∈ st.visited
      · rw [if_pos hv] at hrun
        refine ih ?_ hrun
        exact ⟨hNodup, hVNodup, hVin, hqrest⟩
      · rw [if_neg hv] at hrun
        cases hstep : crawlStep cfg B rootId st.graph (st.visited ++ [cur]) rest cur with
        | error e => rw [hstep] at hrun; cases hrun
        | ok out =>
          rw [hstep] at hrun
          have hcurq : cur ∈ st.queue := hq ▸ List.mem_cons_self cur rest
          have hcurg : cur ∈ idsList st.graph.nodes := hQ.2.2 cur hcurq
          have hcurrest : cur ∉ rest := (List.nodup_cons.mp hqn).1
          have hQA : QInv (st.visited ++ [cur]) st.graph.nodes rest := by
            refine ⟨hqrest.1, ?_, hqrest.2.2⟩
            intro x hx hmem
            rcases List.mem_append.mp hmem with hm | hm
            · exact hqrest.2.1 x hx hm
            · rw [List.mem_singleton] at hm
              exact hcurrest (hm ▸ hx)
          obtain ⟨hgm, hQ'⟩ := crawlStep_inv hQA hstep
          refine ih ?_ hrun
          refine ⟨hgm.2.2 hNodup, ?_, ?_, hQ'⟩
          · refine List.Nodup.append hVNodup (List.nodup_singleton _) ?_
            intro a ha hb
            rw [List.mem_singleton] at hb
            exact hv (hb ▸ ha)
          · intro x hx
            rcases List.mem_append.mp hx with hm | hm
            · exact hgm.1 x (hVin x hm)
            · rw [List.mem_singleton] at hm
              exact hm ▸ hgm.1 cur hcurg

theorem length_le_of_nodup_subset {l l' : List String} (hn : l.Nodup)
    (hs : ∀ x ∈ l, x ∈ l') : l.length ≤ l'.length := by
  classical
  have h1 : l.toFinset.card = l.length := List.toFinset_card_of_nodup hn
  have h2 : l.toFinset ⊆ l'.toFinset := by
    intro x hx
    rw [List.mem_toFinset] at hx ⊢
    exact hs x hx
  have h3 := Finset.card_le_card h2
  have h4 := l'.toFinset_card_le
  omega

/-! ## Claim C1 -/

/-- C1 (amended): `set_parent(child, parent)` with non-null `parent`
never rejects the assignment: it unconditionally records `parent` as
the child's `parent_id` and adds `child` to the parent's children —
also when `parent` is a descendant of `child` at call time, so a cycle
can be created and the `parent_id` walk need not reach a root. -/
theorem c1_set_parent_always_records (g : SpaceGraph) (child p : String) :
    (∃ nc, lookupNode (g.set_parent child (some p)).nodes child = some nc ∧
        nc.parent_id = some p) ∧
    (∃ np, lookupNode (g.set_parent child (some p)).nodes p = some np ∧
        child ∈ np.children) :=
  ⟨set_parent_child_parent g child p, set_parent_adds_child g child p⟩

/-- C1 counterexample: with `B` a child (hence descendant) of `A`,
the call `set_parent("A", "B")` is not rejected — `A`'s parent becomes
`B`, the edge is recorded, and the `parent_id` walk from `A` no longer
terminates at a root within `|graph|` steps. -/
theorem c1_set_parent_cycle_accepted :
    parentIdOf graphC1.nodes "A" = some (some "B") ∧
    "A" ∈ childrenOf graphC1.nodes "B" ∧
    walkToRoot graphC1 graphC1.nodes.length "A" = none := by decide

/-! ## Claim C10 -/

/-- C10: reassigning a node's parent does not remove it from the
former parent's children set — after `set_parent(c, p2)` the id `c`
is still in `p1.children`, and additionally in `p2.children`, while
`c.parent_id` now reads `p2`. -/
theorem c10_old_children_retained (g : SpaceGraph) (c p1 p2 : String) (nOld : PageNode)
    (_hc : lookupNode g.nodes c = some nOld) (_hp : nOld.parent_id = some p1)
    (hmem : c ∈ childrenOf g.nodes p1) (_hne : p2 ≠ p1) :
    c ∈ childrenOf (g.set_parent c (some p2)).nodes p1 ∧
    (∃ np, lookupNode (g.set_parent c (some p2)).nodes p2 = some np ∧ c ∈ np.children) ∧
    (∃ nc, lookupNode (g.set_parent c (some p2)).nodes c = some nc ∧
        nc.parent_id = some p2) :=
  ⟨children_set_parent_mono g c (some p2) hmem, set_parent_adds_child g c p2,
   set_parent_child_parent g c p2⟩

theorem c10_witness :
    "c" ∈ childrenOf (graphC10.set_parent "c" (some "p2")).nodes "p1" ∧
    (∃ np, lookupNode (graphC10.set_parent "c" (some "p2")).nodes "p2" = some np ∧
        "c" ∈ np.children) ∧
    (∃ nc, lookupNode (graphC10.set_parent "c" (some "p2")).nodes "c" = some nc ∧
        nc.parent_id = some "p2") :=
  c10_old_children_retained graphC10 "c" "p1" "p2"
    { id := "c", space_key := "SP", parent_id := some "p1" }
    (by decide) (by decide) (by decide) (by decide)

/-! ## Claim C5 -/

/-- C5 (amended): right after the seed is registered the designated
root is parent-less and recorded as root; but uniqueness of the
parent-less node fails, because `get_or_create` gives every new node
`parent_id = None` until a parent is assigned. -/
theorem c5_seed_root_parentless (cfg : Config) (rootId : String) (title : Option String)
    (currentUrl : String) :
    parentIdOf (seedGraph cfg rootId title currentUrl).nodes rootId = some none ∧
    (seedGraph cfg rootId title currentUrl).root_id = some rootId := by
  unfold seedGraph
  exact set_parent_none_self _ rootId

/-- C5 counterexample: after the seed, merging one harvested entry
whose tree nesting gave no parent leaves two distinct nodes with
`parent_id = None` — "exactly one node has `parent_id = None`" fails
at this reachable point. -/
theorem c5_two_parentless_nodes :
    ((harvestMerge "r" (seedGraph cfgT "r" (some "Root") "Hr") [("200", "", none, "H200")]).nodes.filter (fun pr => pr.2.parent_id == none)).map Prod.fst = ["r", "200"] ∧
    (harvestMerge "r" (seedGraph cfgT "r" (some "Root") "Hr") [("200", "", none, "H200")]).root_id = some "r" := by
  decide

/-! ## Claim C8 -/

/-- C8 (amended): `clean_url` discards a raw href exactly when, after
normalization, the URL is empty or fails to parse as an absolute URL,
or the configured base URL is not a string prefix of it, or a
deny-listed entry or `"/label/"` occurs as a substring anywhere in the
normalized URL (not: when scheme+host differ from the origin or the
path matches a deny-listed endpoint). -/
theorem c8_clean_url_none_iff (cfg : Config) (url : String) :
    clean_url cfg url = none ↔
      url = "" ∨ (urlparse (normalizedUrl cfg url)).scheme = "" ∨
      (urlparse (normalizedUrl cfg url)).netloc = "" ∨
      ¬ strStarts (normalizedUrl cfg url) cfg.baseUrl = true ∨
      (RESTRICTED_URLS.any (fun bad => containsStr (normalizedUrl cfg url) bad) || containsStr (normalizedUrl cfg url) "/label/") = true := by
  unfold clean_url
  by_cases h0 : url = ""
  · simp [h0]
  · rw [if_neg h0]
    simp only [h0, false_or]
    by_cases h1 : (urlparse (normalizedUrl cfg url)).scheme = "" ∨ (urlparse (normalizedUrl cfg url)).netloc = ""
    · rw [if_pos h1]
      exact iff_of_true rfl (h1.elim Or.inl (fun h => Or.inr (Or.inl h)))
    · rw [if_neg h1]
      rcases not_or.mp h1 with ⟨h1a, h1b⟩
      by_cases h2 : ¬ strStarts (normalizedUrl cfg url) cfg.baseUrl = true
      · rw [if_pos h2]
        exact iff_of_true rfl (Or.inr (Or.inr (Or.inl h2)))
      · rw [if_neg h2]
        by_cases h3 : (RESTRICTED_URLS.any (fun bad => containsStr (normalizedUrl cfg url) bad) || containsStr (normalizedUrl cfg url) "/label/") = true
        · rw [if_pos h3]
          exact iff_of_true rfl (Or.inr (Or.inr (Or.inr h3)))
        · rw [if_neg h3]
          refine iff_of_false (by simp) ?_
          rintro (h | h | h | h)
          exacts [h1a h, h1b h, h2 h, h3 h]

/-- C8 counterexample: with origin `https://h.example`, the URL
`https://h.example.evil/p` does not share scheme+host with the origin
— the claim says it is discarded — yet `clean_url` keeps it, because
the code only tests that `BASE_URL` is a string prefix of the URL. -/
theorem c8_host_spoof_prefix_kept :
    spec_discards cfgC8 "https://h.example.evil/p" = true ∧
    clean_url cfgC8 "https://h.example.evil/p" = some "https://h.example.evil/p" :=
  ⟨rfl, rfl⟩

/-! ## Claim C7 -/

/-- C7 (amended): when the email branch does not fire, URL cleaning
succeeds and a target id resolves (which, because `clean_url` strips
the query, can only happen through the `/display/<space>/<title>`
form), the href is rewritten to the relative path from the source
page's folder to the target's output HTML file, with the stripped
fragment reattached. -/
theorem c7_display_link_rewrites_relative {cfg : Config} {g : SpaceGraph}
    {idToFolder : String → String} {idToPathHtml : String → Option String}
    {nodeId rawHref dataUsername href0 frag cl tid target : String}
    (hdf : urldefrag rawHref = (href0, frag))
    (hmail : emailCandidate cfg href0 dataUsername = none)
    (hcl : clean_url cfg href0 = some cl)
    (hres : resolve_target_id cfg g cl = some tid)
    (htar : idToPathHtml tid = some target) :
    rewriteAnchor cfg g idToFolder idToPathHtml nodeId rawHref dataUsername =
      rel_href (idToFolder nodeId) target ++ (if frag = "" then "" else "#" ++ frag) := by
  unfold rewriteAnchor
  rw [hdf]
  dsimp only
  rw [hmail]
  dsimp only
  rw [hcl]
  dsimp only
  rw [hres]
  dsimp only
  rw [htar]

theorem c7_witness :
    rewriteAnchor cfgT graphC7 folderC7 pathHtmlC7 "aid" "https://h/display/SP/B" "" =
      "../y/B.html" :=
  c7_display_link_rewrites_relative
    (show urldefrag "https://h/display/SP/B" = ("https://h/display/SP/B", "") from rfl)
    (show emailCandidate cfgT "https://h/display/SP/B" "" = none from rfl)
    (show clean_url cfgT "https://h/display/SP/B" = some "https://h/display/SP/B" from rfl)
    (show resolve_target_id cfgT graphC7 "https://h/display/SP/B" = some "bid" from rfl)
    (show pathHtmlC7 "bid" = some "root/y/B.html" from rfl)

/-- C7 counterexample: a link from `A` carrying `B`'s canonical id in
`pageId` form is left unmodified — not rewritten to `../y/B.html` —
because `clean_url` strips the query before `resolve_target_id` runs,
so the id can no longer be read. -/
theorem c7_pageid_link_not_rewritten :
    rewriteAnchor cfgT graphC7 folderC7 pathHtmlC7 "aid"
        "https://h/pages/viewpage.action?pageId=bid" "" =
      "https://h/pages/viewpage.action?pageId=bid" ∧
    ("https://h/pages/viewpage.action?pageId=bid" : String) ≠ "../y/B.html" :=
  ⟨rfl, by decide⟩

/-! ## Claim C2 -/

/-- C2 (amended): when the dequeued id renders a different canonical
id, the iteration switches to the rendered id: the browser URL is
recorded among the rendered node's hrefs and the iteration continues
on it — but the dequeued node is not merged away: both ids remain in
the graph. -/
theorem c2_alias_rebinds_and_records_url {cfg : Config} {B : Browser} {rootId : String}
    {g : SpaceGraph} {visitedA queue : List String} {cur0 : String} {node : PageNode}
    {r : RenderResult} {c : String} {out : SpaceGraph × List String × String}
    (hl : lookupNode g.nodes cur0 = some node)
    (hn : B.nav (hrefChoice cfg node cur0) = Except.ok r)
    (hc : r.cid = some c) (hne : c ≠ cur0)
    (hstep : crawlStep cfg B rootId g visitedA queue cur0 = Except.ok out) :
    out.2.2 = c ∧ cur0 ∈ idsList out.1.nodes ∧ c ∈ idsList out.1.nodes ∧
      r.currentUrl ∈ hrefsOf out.1.nodes c := by
  have heff : effectiveCur r cur0 = c := by
    unfold effectiveCur
    rw [hc]
    show (if c = cur0 then cur0 else c) = c
    exact if_neg hne
  rw [crawlStep_node_eq cfg B rootId g visitedA queue cur0 hl hn] at hstep
  rw [Except.ok.injEq] at hstep
  subst hstep
  obtain ⟨hurl, hcur0, hcur⟩ :=
    visitPhase_records_url rootId g cur0 r (lookupNode_mem hl)
  have hfold := foldProcess_gmono B visitedA
    (extract_same_space_links cfg B (hrefChoice cfg node cur0))
    (visitPhase rootId g cur0 r).1 queue
  refine ⟨?_, ?_, ?_, ?_⟩
  · rw [visitPhase_snd, heff]
  · exact hfold.1 cur0 hcur0
  · exact heff ▸ hfold.1 _ hcur
  · exact heff ▸ hfold.2.1 _ _ hurl

theorem c2_witness :
    stepC2w.2.2 = "101" ∧ "100" ∈ idsList stepC2w.1.nodes ∧
    "101" ∈ idsList stepC2w.1.nodes ∧ "U" ∈ hrefsOf stepC2w.1.nodes "101" :=
  c2_alias_rebinds_and_records_url
    (show lookupNode stC2.graph.nodes "100" = some { id := "100", space_key := "SP", title := some "T100", slug := none, hrefs := ["U"], parent_id := some "r", children := [] } from rfl)
    (show browserC2.nav (hrefChoice cfgT { id := "100", space_key := "SP", title := some "T100", slug := none, hrefs := ["U"], parent_id := some "r", children := [] } "100") = Except.ok { cid := some "101", title := some "T101", parent := none, currentUrl := "U" } from rfl)
    rfl (by decide) rfl

/-- C2 counterexample: the run in which URL `U`, queued under id
`100`, renders identity `101`, ends with nodes `100` and `101` both
in the graph — not "a single node 101" — though `U` is recorded among
`101`'s hrefs. -/
theorem c2_alias_node_remains :
    (crawlLoop cfgT browserC2 "r" 9 stC2).toOption.map (fun p => idsList p.1.graph.nodes) =
      some ["r", "100", "101"] ∧
    (crawlLoop cfgT browserC2 "r" 9 stC2).toOption.map (fun p => hrefsOf p.1.graph.nodes "101") =
      some ["U"] := by
  exact ⟨rfl, rfl⟩

/-! ## Claim C4 -/

/-- The step `parentAssignStep` keeps the root parent-less when the
rendered parent is falsy and the effective id is the root. -/
theorem parentAssignStep_root_none (rootId : String) (g : SpaceGraph) {cur : String}
    (hc : cur = rootId) (p : Option String) (hfalsy : optFalsy p = true) :
    parentIdOf (parentAssignStep rootId g cur p).nodes rootId = some none := by
  cases p with
  | none =>
    show parentIdOf (if cur = rootId then g.set_parent cur none else g).nodes rootId = some none
    rw [if_pos hc, hc]
    exact (set_parent_none_self g rootId).1
  | some s =>
    have hs : s = "" := by
      by_cases h : s = ""
      · exact h
      · simp [optFalsy, h] at hfalsy
    show parentIdOf (if s = "" then (if cur = rootId then g.set_parent cur none else g) else g.set_parent cur (some s)).nodes rootId = some none
    rw [if_pos hs, if_pos hc, hc]
    exact (set_parent_none_self g rootId).1

/-- C4 (amended): the root's `parent_id` is kept `None` by a visit of
the root only when the rendering returns no (or falsy) parent
metadata, and provided no link discovered in the same iteration
renders as the root with a truthy parent.  (A truthy rendered parent
for the root overrides `None`: see the counterexample.) -/
theorem c4_root_parent_kept_when_meta_absent {cfg : Config} {B : Browser} {rootId : String}
    {g : SpaceGraph} {visitedA queue : List String} {cur0 : String} {node : PageNode}
    {r : RenderResult} {out : SpaceGraph × List String × String}
    (hl : lookupNode g.nodes cur0 = some node)
    (hn : B.nav (hrefChoice cfg node cur0) = Except.ok r)
    (hpar : optFalsy r.parent = true)
    (heff : effectiveCur r cur0 = rootId)
    (hsafe : ∀ link ∈ extract_same_space_links cfg B (hrefChoice cfg node cur0),
      ∀ r2, B.nav link = Except.ok r2 → ∀ e, r2.cid = some e → e = rootId →
        optFalsy r2.parent = true)
    (hstep : crawlStep cfg B rootId g visitedA queue cur0 = Except.ok out) :
    parentIdOf out.1.nodes rootId = some none := by
  rw [crawlStep_node_eq cfg B rootId g visitedA queue cur0 hl hn] at hstep
  rw [Except.ok.injEq] at hstep
  subst hstep
  have hvp : parentIdOf (visitPhase rootId g cur0 r).1.nodes rootId = some none :=
    parentAssignStep_root_none rootId
      (fillTitleStep ((if effectiveCur r cur0 = cur0 then g else g.get_or_create (effectiveCur r cur0)).addHref (effectiveCur r cur0) r.currentUrl) (effectiveCur r cur0) r.title)
      heff r.parent hpar
  exact foldProcess_rootParent B visitedA _ (visitPhase rootId g cur0 r).1 queue hvp hsafe

theorem c4_witness :
    parentIdOf stepC4w.1.nodes "r" = some none :=
  c4_root_parent_kept_when_meta_absent
    (show lookupNode (seedGraph cfgT "r" (some "Root") "Hr").nodes "r" = some { id := "r", space_key := "SP", title := some "Root", slug := none, hrefs := ["Hr"], parent_id := none, children := [] } from rfl)
    (show browserC4w.nav (hrefChoice cfgT { id := "r", space_key := "SP", title := some "Root", slug := none, hrefs := ["Hr"], parent_id := none, children := [] } "r") = Except.ok { cid := some "r", title := none, parent := none, currentUrl := "Hr" } from rfl)
    rfl rfl
    (fun link hlink => absurd hlink (List.not_mem_nil link)) rfl

/-- C4 counterexample: a visit of the root for which the renderer
returns parent metadata `P` sets the root's `parent_id` to `P` — the
`elif cur == root_id` guard only fires when the rendered parent is
falsy, so the root's `None` is not preserved. -/
theorem c4_root_parent_overwritten :
    (crawlLoop cfgT browserC4 "r" 3 stC4).toOption.map (fun p => parentIdOf p.1.graph.nodes "r") =
      some (some (some "P")) ∧
    (crawlLoop cfgT browserC4 "r" 3 stC4).toOption.map (fun p => p.1.graph.root_id) =
      some (some "r") := by
  exact ⟨rfl, rfl⟩

/-! ## Claim C3 -/

/-- C3 (amended): every *dequeued id* is processed at most once
(`visited` stays duplicate-free), the number of processed visits is
bounded by the number of discovered graph nodes, and the loop reports
completion exactly when the queue emptied.  (A *logical page* — a
canonical id — can still be rendered twice through an alias: see the
counterexample.) -/
theorem c3_ids_visited_once_bounded {cfg : Config} {B : Browser} {rootId : String}
    {fuel : Nat} {st st' : CrawlState} {done : Bool} (h : LInv st)
    (hrun : crawlLoop cfg B rootId fuel st = Except.ok (st', done)) :
    st'.visited.Nodup ∧ st'.visited.length ≤ st'.graph.nodes.length ∧
      (done = true → st'.queue = []) := by
  obtain ⟨h', hdone⟩ := crawlLoop_inv fuel h hrun
  refine ⟨h'.2.1, ?_, hdone⟩
  have hle := length_le_of_nodup_subset h'.2.1 h'.2.2.1
  have hlen : (idsList st'.graph.nodes).length = st'.graph.nodes.length :=
    List.length_map _ _
  omega

theorem c3_witness :
    outC3.1.visited.Nodup ∧ outC3.1.visited.length ≤ outC3.1.graph.nodes.length ∧
      (outC3.2 = true → outC3.1.queue = []) :=
  c3_ids_visited_once_bounded (show LInv stC3 by unfold LInv QInv; decide)
    (show crawlLoop cfgT browserC3 "r" 9 stC3 = Except.ok (outC3.1, outC3.2) from rfl)

/-- C3 counterexample: in the alias run, the loop dequeues `100`
(whose page-tree href meanwhile renders canonical id `101`) and later
dequeues `101` itself — the trace of page identities the processed
iterations operated on is `["r", "101", "101"]`, so the logical page
`101` is visited twice. -/
theorem c3_logical_page_visited_twice :
    (crawlLoop cfgT browserC3 "r" 9 stC3).toOption.map (fun p => p.1.renderedLog) =
      some ["r", "101", "101"] ∧
    ¬ (["r", "101", "101"] : List String).Nodup := by
  exact ⟨rfl, by decide⟩

/-! ## Claim C9 -/

theorem extract_anchors_empty {cfg : Config} {B : Browser} {url : String}
    (ha : B.anchors url = []) : extract_same_space_links cfg B url = [] := by
  unfold extract_same_space_links
  rw [ha]
  rfl

/-- A rendering timeout `(None, None, None)` leaves the visit phase
with only the browser URL recorded on the dequeued (non-root)
node. -/
theorem visitPhase_timeout (rootId : String) (g : SpaceGraph) (cur : String)
    (r : RenderResult) (hcid : r.cid = none) (ht : r.title = none)
    (hp : r.parent = none) (hcr : cur ≠ rootId) :
    visitPhase rootId g cur r = (g.addHref cur r.currentUrl, cur) := by
  unfold visitPhase effectiveCur
  rw [hcid, ht, hp]
  simp only [fillTitleStep, parentAssignStep, if_neg hcr, eq_self_iff_true, if_true]

/-- C9 (amended): a rendering failure that surfaces as a timeout
(`navigate_and_wait` returns no identity) on a dequeued non-seed page
is absorbed: the node stays marked visited, only the browser URL is
added to its hrefs, no links are contributed, and the loop proceeds
with the remaining queue.  A failure that surfaces as an exception
from `driver.get`, however, aborts the whole crawl: see the
counterexample. -/
theorem c9_timeout_marks_visited_continues {cfg : Config} {B : Browser} {rootId : String}
    {fuel : Nat} {st : CrawlState} {cur : String} {rest : List String} {node : PageNode}
    {r : RenderResult}
    (hq : st.queue = cur :: rest) (hnv : cur ∉ st.visited) (hcr : cur ≠ rootId)
    (hl : lookupNode st.graph.nodes cur = some node)
    (hn : B.nav (hrefChoice cfg node cur) = Except.ok r)
    (hcid : r.cid = none) (ht : r.title = none) (hp : r.parent = none)
    (ha : B.anchors (hrefChoice cfg node cur) = []) :
    crawlLoop cfg B rootId (fuel + 1) st =
      crawlLoop cfg B rootId fuel
        { graph := st.graph.addHref cur r.currentUrl, visited := st.visited ++ [cur],
          queue := rest, renderedLog := st.renderedLog ++ [cur] } := by
  rw [crawlLoop_cons cfg B rootId fuel st hq, if_neg hnv]
  have hstep : crawlStep cfg B rootId st.graph (st.visited ++ [cur]) rest cur =
      Except.ok (st.graph.addHref cur r.currentUrl, rest, cur) := by
    rw [crawlStep_node_eq cfg B rootId st.graph (st.visited ++ [cur]) rest cur hl hn]
    rw [visitPhase_timeout rootId st.graph cur r hcid ht hp hcr]
    rw [extract_anchors_empty ha]
    rfl
  rw [hstep]

theorem c9_witness :
    crawlLoop cfgT browserC9w "r" 1 stC9w =
      crawlLoop cfgT browserC9w "r" 0
        { graph := stC9w.graph.addHref "200" "H200", visited := ["r", "200"],
          queue := [], renderedLog := ["200"] } :=
  c9_timeout_marks_visited_continues rfl (by decide) (by decide)
    (show lookupNode stC9w.graph.nodes "200" = some { id := "200", space_key := "SP", title := none, slug := none, hrefs := ["H200"], parent_id := some "r", children := [] } from rfl)
    (show browserC9w.nav (hrefChoice cfgT { id := "200", space_key := "SP", title := none, slug := none, hrefs := ["H200"], parent_id := some "r", children := [] } "200") = Except.ok { cid := none, title := none, parent := none, currentUrl := "H200" } from rfl)
    rfl rfl rfl rfl

/-- C9 counterexample: navigating the dequeued non-seed node `200`
(first-known href `H200`) raises inside `driver.get`; nothing in the
loop catches it and the whole crawl aborts with the exception —
"caught and does not abort the crawl" fails. -/
theorem c9_nav_exception_aborts_crawl :
    crawlLoop cfgT browserC9 "r" 9 stC9 = Except.error () := rfl

/-! ## Claim C6 -/

/-- C6 (amended): a slug assigned through the no-collision branch is
case-insensitively new among the slugs already used in its sibling
group; the `-<id>` disambiguation resolves a collision only when no
earlier sibling already holds the suffixed slug — when every assigned
slug was still fresh (the ghost flag of `assignSlugsAux`), the
lower-cased sibling slugs are pairwise distinct and disjoint from the
initially used set. -/
theorem c6_slugs_nodup_of_fresh :
    ∀ (l : List (String × Option String)) (used : List String)
      (out : List (String × String)), assignSlugsAux l used = (out, true) →
      (out.map (fun pr => lowerStr pr.2)).Nodup ∧
        ∀ s ∈ out.map (fun pr => lowerStr pr.2), s ∉ used := by
  intro l
  induction l with
  | nil =>
    intro used out h
    rw [assignSlugsAux] at h
    rw [Prod.mk.injEq] at h
    rw [← h.1]
    exact ⟨List.nodup_nil, by simp⟩
  | cons hd rest ih =>
    intro used out h
    obtain ⟨nid, title⟩ := hd
    simp only [assignSlugsAux] at h
    rw [Prod.mk.injEq] at h
    obtain ⟨hout, hflag⟩ := h
    rw [Bool.and_eq_true] at hflag
    obtain ⟨hfresh, hrest⟩ := hflag
    have hfresh' : lowerStr (slugChoice used nid title) ∉ used := by
      intro hmem
      rw [if_pos hmem] at hfresh
      exact Bool.false_ne_true hfresh
    have hrec : assignSlugsAux rest (addToSet used (lowerStr (slugChoice used nid title))) =
        ((assignSlugsAux rest (addToSet used (lowerStr (slugChoice used nid title)))).1, true) := by
      rw [← hrest]
    have hih := ih (addToSet used (lowerStr (slugChoice used nid title)))
      (assignSlugsAux rest (addToSet used (lowerStr (slugChoice used nid title)))).1 hrec
    rw [← hout]
    constructor
    · rw [List.map_cons, List.nodup_cons]
      exact ⟨fun hmem => hih.2 _ hmem
        (addToSet_mem_self used (lowerStr (slugChoice used nid title))), hih.1⟩
    · intro s hs
      rw [List.map_cons, List.mem_cons] at hs
      rcases hs with hs | hs
      · exact hs ▸ hfresh'
      · exact fun hmem => hih.2 s hs (addToSet_mem_old hmem)

theorem c6_witness :
    (c6wOut.map (fun pr => lowerStr pr.2)).Nodup ∧
      ∀ s ∈ c6wOut.map (fun pr => lowerStr pr.2), s ∉ ([] : List String) :=
  c6_slugs_nodup_of_fresh [("1", some "A"), ("2", some "A")] [] c6wOut rfl

/-- C6 counterexample: siblings of `r` titled `".a-2"` (id 9), `"a"`
(id 1), `"a"` (id 2): sanitizing strips the leading dot, so id 9 gets
slug `a-2`; id 2's sanitized name `a` collides with id 1's slug and
the one-shot `-<id>` suffix yields `a-2` again — assigned without any
further check, so two siblings end up with the *same* slug and the
pairwise case-insensitive distinctness of sibling slugs fails. -/
theorem c6_sibling_slug_collision :
    (lookupNode (finalizeSlugs graphC6).1.nodes "9").bind PageNode.slug = some "a-2" ∧
    (lookupNode (finalizeSlugs graphC6).1.nodes "2").bind PageNode.slug = some "a-2" ∧
    (lookupNode (finalizeSlugs graphC6).1.nodes "9").map PageNode.parent_id =
      some (some "r") ∧
    (lookupNode (finalizeSlugs graphC6).1.nodes "2").map PageNode.parent_id =
      some (some "r") ∧
    (finalizeSlugs graphC6).2 = false := by
  exact ⟨rfl, rfl, rfl, rfl, rfl⟩

end Confluence
